import Mathlib

/-!
Verification development for the bet_v2 repository core.

Part 1 embeds `src/parsing/unified_parser.py` (class `UnifiedParser`):
the multiline preprocessor, value/number extraction, length-based
classification and the `parse` entry point.

Part 2 embeds `src/database/db_manager.py` (class `DatabaseManager`):
the ledger mutation operations and the rollup recomputation engine.

Python strings are modelled as `List Char`; Python `int` values read from
digit runs are `Nat` (a `\d+` match is always non-negative, so the dead
`value < 0` branch of `_extract_value` is not reproduced); SQL INTEGER
columns are `Int`.
-/

namespace BetV2

/-- Whitespace recognised by Python `str.strip` / `\s` (ASCII fragment). -/
def isPySpace (c : Char) : Bool :=
  c = ' ' || c = '\t' || c = '\n' || c = '\x0b' || c = '\x0c' || c = '\r'

/-- Python `str.strip()` on a character list. -/
def pyStrip (l : List Char) : List Char :=
  ((l.dropWhile isPySpace).reverse.dropWhile isPySpace).reverse

/-- Python `str.rstrip()` on a character list. -/
def pyRstrip (l : List Char) : List Char :=
  (l.reverse.dropWhile isPySpace).reverse

/-- Python `str.upper()` (ASCII fragment; the inputs of interest are ASCII
plus the rupee sign, which `upper` leaves unchanged). -/
def pyUpper (l : List Char) : List Char :=
  l.map Char.toUpper

/-- Python `str.isdigit()` restricted to ASCII: non-empty and all digits. -/
def pyIsDigit (l : List Char) : Bool :=
  !l.isEmpty && l.all Char.isDigit

/-- Python `text.replace('RS', '')`: remove every non-overlapping
occurrence of "RS", scanning left to right. -/
def removeRS : List Char → List Char
  | [] => []
  | 'R' :: 'S' :: rest => removeRS rest
  | c :: rest => c :: removeRS rest

/-- Python `line.replace('==', '=')`: collapse every non-overlapping
occurrence of "==" to "=", scanning left to right. -/
def collapseDoubleEq : List Char → List Char
  | [] => []
  | '=' :: '=' :: rest => '=' :: collapseDoubleEq rest
  | c :: rest => c :: collapseDoubleEq rest

/-- Python `sub in text` substring containment. -/
def containsSub (pat : List Char) : List Char → Bool
  | [] => pat.isPrefixOf []
  | c :: rest => pat.isPrefixOf (c :: rest) || containsSub pat rest

/-- Python `text.split(ch)` on a single separator character. -/
def splitOnChar (ch : Char) : List Char → List (List Char)
  | [] => [[]]
  | c :: rest =>
    if c = ch then [] :: splitOnChar ch rest
    else
      match splitOnChar ch rest with
      | [] => [[c]]
      | h :: t => (c :: h) :: t

/-- Python `'\n'.join(lines)` on character lists. -/
def joinNewline : List (List Char) → List Char
  | [] => []
  | [l] => l
  | l :: rest => l ++ '\n' :: joinNewline rest

/-- Value of a digit character. -/
def digitVal (c : Char) : Nat := c.toNat - '0'.toNat

/-- Python `int(s)` on a string of decimal digits. -/
def digitsToNat (l : List Char) : Nat :=
  l.foldl (fun a c => 10 * a + digitVal c) 0

/-- Python `re.search(r'\d+', text)`: the first maximal digit run, if any. -/
def firstDigitRun : List Char → Option (List Char)
  | [] => none
  | c :: rest =>
    if c.isDigit then some (c :: rest.takeWhile Char.isDigit)
    else firstDigitRun rest

/-- Separator characters of `UnifiedParser.separators_pattern`,
`[*/\-,\s|:+]`. -/
def isSep (c : Char) : Bool :=
  c = '*' || c = '/' || c = '-' || c = ',' || isPySpace c || c = '|' ||
  c = ':' || c = '+'

/-- Python `re.split(r'[*/\-,\s|:+]+', text)`: split on maximal non-empty
runs of separator characters.  `prevSep` records whether the previous
character was part of a separator run. -/
def splitSepsGo : List Char → List Char → Bool → List (List Char)
  | [], acc, _ => [acc.reverse]
  | c :: rest, acc, prevSep =>
    if isSep c then
      if prevSep then splitSepsGo rest [] true
      else acc.reverse :: splitSepsGo rest [] true
    else splitSepsGo rest (c :: acc) false

/-- Python `re.split(self.separators_pattern, text)`. -/
def splitSeps (l : List Char) : List (List Char) :=
  splitSepsGo l [] false

/-- Entry kind of `ParsedEntry.entry_type` ('time' / 'jodi' / 'pana'). -/
inductive EType
  | time
  | jodi
  | pana
deriving DecidableEq, Repr

/-- Table kind of `TypeTableEntry.table_type` (normalised to upper case). -/
inductive TType
  | SP
  | DP
  | DPT
  | CP
deriving DecidableEq, Repr

/-- Dataclass `ParsedEntry` of `unified_parser.py`. -/
structure ParsedEntry where
  number : Nat
  value : Nat
  entry_type : EType
deriving DecidableEq, Repr

/-- Dataclass `TypeTableEntry` of `unified_parser.py`. -/
structure TypeTableEntry where
  column : Nat
  table_type : TType
  value : Nat
deriving DecidableEq, Repr

/-- Dataclass `FamilyPanaEntry` of `unified_parser.py`. -/
structure FamilyPanaEntry where
  reference_number : Nat
  value : Nat
deriving DecidableEq, Repr

/-- One element of the heterogeneous list returned by `_parse_line`. -/
inductive LineEntry
  | pe (e : ParsedEntry)
  | tt (e : TypeTableEntry)
  | fam (e : FamilyPanaEntry)
deriving DecidableEq, Repr

/-- Error kinds: one constructor per `raise ValueError` site of
`unified_parser.py`, plus the two error strings appended directly by
`parse` ("Empty input", "No valid entries found"). -/
inductive ParseErr
  | emptyInput
  | noValidEntries
  | missingAssignment
  | noNumbersBeforeEq
  | noValueAfterEq
  | noNumericValue
  | familyRefRange (ref : Nat)
  | spColRange (col : Nat)
  | dpColRange (t : TType) (col : Nat)
  | cpColRange (col : Nat)
  | noValidNumbers
  | invalidTimeNumber (tok : List Char)
  | invalidJodiNumber (tok : List Char)
  | invalidPanaNumber (tok : List Char)
  | invalidNumberLength (tok : List Char)
deriving DecidableEq, Repr

deriving instance DecidableEq for Except

/-- Method `_extract_value`: strip currency markers (`RS`, `₹`) and
thousands separators, then take the first digit run of the result.  A
`\d+` match is never negative, so the `value < 0` branch of the source is
unreachable and is not reproduced. -/
def extractValue (t : List Char) : Except ParseErr Nat :=
  let cleaned :=
    pyStrip (((removeRS (pyUpper t)).filter (· ≠ '₹')).filter (· ≠ ','))
  match firstDigitRun cleaned with
  | some run => Except.ok (digitsToNat run)
  | none => Except.error ParseErr.noNumericValue

/-- Method `_extract_numbers`: split on separator runs, keep the leading
digit run of each non-empty fragment (preserving leading zeros). -/
def extractNumbers (t : List Char) : List (List Char) :=
  (splitSeps t).filterMap fun part =>
    let part := pyStrip part
    match part with
    | [] => none
    | c :: rest => if c.isDigit then some (c :: rest.takeWhile Char.isDigit) else none

/-- Method `_classify_by_length`: kind determined by the digit-string
length, value by its integer reading. -/
def classifyByLength (numStr : List Char) : Except ParseErr (EType × Nat) :=
  let length := numStr.length
  let numValue := digitsToNat numStr
  if length = 1 then
    if numValue ≤ 9 then Except.ok (EType.time, numValue)
    else Except.error (ParseErr.invalidTimeNumber numStr)
  else if length = 2 then
    if numValue ≤ 99 then Except.ok (EType.jodi, numValue)
    else Except.error (ParseErr.invalidJodiNumber numStr)
  else if length = 3 then
    if numValue ≤ 999 then Except.ok (EType.pana, numValue)
    else Except.error (ParseErr.invalidPanaNumber numStr)
  else Except.error (ParseErr.invalidNumberLength numStr)

/-- Anchored match of `^(\d{3})(family|FAMILY|Family)$` (note: the source
pattern is case sensitive and admits exactly these three spellings),
returning the three-digit capture. -/
def matchFamily : List Char → Option (List Char)
  | d1 :: d2 :: d3 :: rest =>
    if d1.isDigit && d2.isDigit && d3.isDigit &&
       (rest = "family".data || rest = "FAMILY".data || rest = "Family".data)
    then some [d1, d2, d3] else none
  | _ => none

/-- Method `_parse_family_pana_entry`. -/
def parseFamilyPana (t : List Char) (value : Nat) :
    Except ParseErr (Option FamilyPanaEntry) :=
  match matchFamily (pyStrip t) with
  | none => Except.ok none
  | some digits =>
    let ref := digitsToNat digits
    if 100 ≤ ref ∧ ref ≤ 999 then
      Except.ok (some ⟨ref, value⟩)
    else Except.error (ParseErr.familyRefRange ref)

/-- Scanner state for `re.findall(r'(\d+)(DPT|SP|DP|CP|dpt|sp|dp|cp)',
text, re.IGNORECASE)`.  `run` holds the digits of the pending `\d+`
capture in reverse. -/
inductive TTState
  | scanning
  | inRun (run : List Char)
  | sawD (run : List Char)
  | sawDP (run : List Char)
  | sawS (run : List Char)
  | sawC (run : List Char)
deriving DecidableEq, Repr

/-- One-character-at-a-time scanner equivalent to the source's `findall`:
at each digit run the following characters are tested against the
alternatives in order (DPT before DP, case-insensitively).  A failed
attempt cannot match again inside the same run (every alternative starts
with a letter), so scanning resumes at the character that broke it; after
`\d+` + "DP", a following `T` extends the match to DPT, anything else
closes it as DP (also at end of input). -/
def findTTGo : List Char → TTState → List (List Char × TType)
  | [], st =>
    match st with
    | TTState.sawDP run => [(run.reverse, TType.DP)]
    | _ => []
  | c :: rest, TTState.scanning =>
    if c.isDigit then findTTGo rest (TTState.inRun [c])
    else findTTGo rest TTState.scanning
  | c :: rest, TTState.inRun run =>
    if c.isDigit then findTTGo rest (TTState.inRun (c :: run))
    else if c.toUpper = 'D' then findTTGo rest (TTState.sawD run)
    else if c.toUpper = 'S' then findTTGo rest (TTState.sawS run)
    else if c.toUpper = 'C' then findTTGo rest (TTState.sawC run)
    else findTTGo rest TTState.scanning
  | c :: rest, TTState.sawD run =>
    if c.toUpper = 'P' then findTTGo rest (TTState.sawDP run)
    else if c.isDigit then findTTGo rest (TTState.inRun [c])
    else findTTGo rest TTState.scanning
  | c :: rest, TTState.sawDP run =>
    if c.toUpper = 'T' then (run.reverse, TType.DPT) :: findTTGo rest TTState.scanning
    else if c.isDigit then (run.reverse, TType.DP) :: findTTGo rest (TTState.inRun [c])
    else (run.reverse, TType.DP) :: findTTGo rest TTState.scanning
  | c :: rest, TTState.sawS run =>
    if c.toUpper = 'P' then (run.reverse, TType.SP) :: findTTGo rest TTState.scanning
    else if c.isDigit then findTTGo rest (TTState.inRun [c])
    else findTTGo rest TTState.scanning
  | c :: rest, TTState.sawC run =>
    if c.toUpper = 'P' then (run.reverse, TType.CP) :: findTTGo rest TTState.scanning
    else if c.isDigit then findTTGo rest (TTState.inRun [c])
    else findTTGo rest TTState.scanning

/-- All `(\d+)(DPT|SP|DP|CP)` matches of a text, in order. -/
def findTypeMatches (t : List Char) : List (List Char × TType) :=
  findTTGo t TTState.scanning

/-- Column range validation of `_parse_type_table_entries`. -/
def validateTypeEntry (value : Nat) : List Char × TType →
    Except ParseErr TypeTableEntry
  | (colStr, tt) =>
    let column := digitsToNat colStr
    match tt with
    | TType.SP =>
      if 1 ≤ column ∧ column ≤ 10 then Except.ok ⟨column, tt, value⟩
      else Except.error (ParseErr.spColRange column)
    | TType.DP =>
      if 1 ≤ column ∧ column ≤ 10 then Except.ok ⟨column, tt, value⟩
      else Except.error (ParseErr.dpColRange tt column)
    | TType.DPT =>
      if 1 ≤ column ∧ column ≤ 10 then Except.ok ⟨column, tt, value⟩
      else Except.error (ParseErr.dpColRange tt column)
    | TType.CP =>
      if (11 ≤ column ∧ column ≤ 99) ∨ column = 0 then Except.ok ⟨column, tt, value⟩
      else Except.error (ParseErr.cpColRange column)

/-- Method `_parse_type_table_entries`: `None` when no pattern matches,
otherwise one validated entry per match. -/
def parseTypeTable (t : List Char) (value : Nat) :
    Except ParseErr (Option (List TypeTableEntry)) :=
  match findTypeMatches t with
  | [] => Except.ok none
  | ms => do
    let entries ← ms.mapM (validateTypeEntry value)
    pure (some entries)

/-- Split a line at its first `=` (the source's `line.split('=', 1)`). -/
def splitFirstEq : List Char → List Char × List Char
  | [] => ([], [])
  | c :: rest =>
    if c = '=' then ([], rest)
    else
      let (a, b) := splitFirstEq rest
      (c :: a, b)

/-- The per-token loop of `_parse_line`: classify each number string in
order, stopping at the first failure (a raised ValueError aborts the
line). -/
def classifyTokens (value : Nat) : List (List Char) → Except ParseErr (List LineEntry)
  | [] => Except.ok []
  | s :: rest =>
    match classifyByLength s with
    | Except.error e => Except.error e
    | Except.ok (entryType, numValue) =>
      match classifyTokens value rest with
      | Except.error e => Except.error e
      | Except.ok es => Except.ok (LineEntry.pe ⟨numValue, value, entryType⟩ :: es)

/-- Method `_parse_line`: normalise `==`, require a `=`, split at the
first `=`, extract the value, then try family, type-table and plain
numbers in that order. -/
def parseLine (line : List Char) : Except ParseErr (List LineEntry) :=
  let line := collapseDoubleEq line
  if !line.contains '=' then Except.error ParseErr.missingAssignment
  else
    let parts := splitFirstEq line
    let numbersPart := pyStrip parts.1
    let valuePart := pyStrip parts.2
    if numbersPart.isEmpty then Except.error ParseErr.noNumbersBeforeEq
    else if valuePart.isEmpty then Except.error ParseErr.noValueAfterEq
    else
      match extractValue valuePart with
      | Except.error e => Except.error e
      | Except.ok value =>
        match parseFamilyPana numbersPart value with
        | Except.error e => Except.error e
        | Except.ok (some fe) => Except.ok [LineEntry.fam fe]
        | Except.ok none =>
          match parseTypeTable numbersPart value with
          | Except.error e => Except.error e
          | Except.ok (some tes) => Except.ok (tes.map LineEntry.tt)
          | Except.ok none =>
            let numberStrings := extractNumbers numbersPart
            if numberStrings.isEmpty then Except.error ParseErr.noValidNumbers
            else classifyTokens value numberStrings

/-- Method `_is_pure_value`: does a continuation line look like a
standalone value (currency marker, internal comma grouping of ≥ 4 digits,
or a plain number of ≥ 4 digits)? -/
def isPureValue (t : List Char) : Bool :=
  let hasCurrency := containsSub "RS".data (pyUpper t) || t.contains '₹'
  if hasCurrency then true
  else if (pyRstrip t).getLast? = some ',' then false
  else
    let hasCommaFormatting :=
      t.contains ',' && !(t.head? = some ',') && !(t.getLast? = some ',')
    let commaCheck :=
      let cleanedForComma := pyStrip (t.filter (· ≠ ','))
      pyIsDigit cleanedForComma && cleanedForComma.length ≥ 4
    if hasCommaFormatting && commaCheck then true
    else
      let cleaned :=
        pyStrip (((removeRS (pyUpper t)).filter (· ≠ '₹')).filter (· ≠ ','))
      let cleanedNoSpaces := cleaned.filter (· ≠ ' ')
      if !pyIsDigit cleanedNoSpaces then false
      else if cleanedNoSpaces.length = 0 then false
      else if cleanedNoSpaces.length ≤ 3 then false
      else true

/-- Method `_could_be_value`: more permissive than `isPureValue` — any
plain number with no list separator and no trailing comma. -/
def couldBeValue (t : List Char) : Bool :=
  if t.contains '/' || t.contains '-' || t.contains '*' || t.contains '+' ||
     t.contains ':' || t.contains '|' then false
  else if (pyRstrip t).getLast? = some ',' then false
  else
    let cleaned :=
      pyStrip (((removeRS (pyUpper t)).filter (· ≠ '₹')).filter (· ≠ ','))
    let cleanedNoSpaces := cleaned.filter (· ≠ ' ')
    if !pyIsDigit cleanedNoSpaces then false
    else if cleanedNoSpaces.length = 0 then false
    else true

/-- Trailing-space detection of `_preprocess_multiline_values`:
`raw != raw.rstrip() and raw.rstrip() == raw.strip()`. -/
def trailSpace (raw : List Char) : Bool :=
  raw != pyRstrip raw && pyRstrip raw == pyStrip raw

/-- Accumulator of the inner combining loop of
`_preprocess_multiline_values`: the combined text so far, the pending
trailing-space flag, the number of empty lines skipped since the last
content, and the last line that could be a value together with its line
index (`last_potential_value`, `last_potential_value_idx`). -/
structure CombineState where
  combined : List Char
  hadTrailingSpace : Bool
  emptyCnt : Nat
  lastVal : Option (List Char × Nat)
deriving DecidableEq, Repr

/-- One step of the inner loop in the "more numbers" branch. -/
def stepCombine (st : CombineState) (nl raw : List Char) (idx : Nat) :
    CombineState :=
  let lastVal := if couldBeValue nl then some (nl, idx) else st.lastVal
  let combined := if st.hadTrailingSpace then st.combined ++ [' '] else st.combined
  { combined := combined ++ nl
    hadTrailingSpace := trailSpace raw
    emptyCnt := 0
    lastVal := lastVal }

/-- End-of-input branch of the inner loop (the `while`'s `else`): if a
pending potential value exists (Python truthiness: non-empty string and
non-zero index), chop it off the tail of the combined text and re-append
it as `=value`. -/
def finishCombine (st : CombineState) : List Char :=
  match st.lastVal with
  | some (v, k) =>
    if v.isEmpty || k = 0 then st.combined
    else st.combined.take (st.combined.length - v.length) ++ '=' :: v
  | none => st.combined

/-- Line-by-line driver of `_preprocess_multiline_values`.  `idx` is the
index of the line at the head of the list (Python's `i` / `next_idx`);
`none` means no combining is in progress. -/
def ppGo : List (List Char) → Nat → Option CombineState → List (List Char)
  | [], _, none => []
  | [], _, some st => [finishCombine st]
  | raw :: rest, idx, none =>
    let cur := pyStrip raw
    if cur.isEmpty then cur :: ppGo rest (idx + 1) none
    else if cur.contains '=' then cur :: ppGo rest (idx + 1) none
    else ppGo rest (idx + 1) (some ⟨cur, trailSpace raw, 0, none⟩)
  | raw :: rest, idx, some st =>
    let nl := pyStrip raw
    if nl.isEmpty then
      ppGo rest (idx + 1) (some { st with emptyCnt := st.emptyCnt + 1 })
    else if nl.head? = some '=' then
      (st.combined ++ nl) ::
        (List.replicate st.emptyCnt [] ++ ppGo rest (idx + 1) none)
    else if isPureValue nl then
      (st.combined ++ '=' :: nl) ::
        (List.replicate st.emptyCnt [] ++ ppGo rest (idx + 1) none)
    else ppGo rest (idx + 1) (some (stepCombine st nl raw idx))

/-- Method `_preprocess_multiline_values`. -/
def preprocessMultilineValues (t : List Char) : List Char :=
  joinNewline (ppGo (splitOnChar '\n' t) 0 none)

/-- Result dictionary of `UnifiedParser.parse`.  Errors are recorded as
(line number, error kind) pairs; line number 0 marks the two batch-level
errors appended without a line context. -/
structure ParseResult where
  success : Bool
  entries : List ParsedEntry
  time_entries : List ParsedEntry
  jodi_entries : List ParsedEntry
  pana_entries : List ParsedEntry
  type_entries : List TypeTableEntry
  family_pana_entries : List FamilyPanaEntry
  errors : List (Nat × ParseErr)
deriving DecidableEq, Repr

/-- The initial result dictionary of `parse`. -/
def emptyResult : ParseResult :=
  { success := true, entries := [], time_entries := [], jodi_entries := []
    pana_entries := [], type_entries := [], family_pana_entries := []
    errors := [] }

/-- Routing of one parsed entry into the result's categorised lists. -/
def distributeEntry (r : ParseResult) : LineEntry → ParseResult
  | LineEntry.tt te => { r with type_entries := r.type_entries ++ [te] }
  | LineEntry.fam fe =>
    { r with family_pana_entries := r.family_pana_entries ++ [fe] }
  | LineEntry.pe p =>
    let r := { r with entries := r.entries ++ [p] }
    match p.entry_type with
    | EType.time => { r with time_entries := r.time_entries ++ [p] }
    | EType.jodi => { r with jodi_entries := r.jodi_entries ++ [p] }
    | EType.pana => { r with pana_entries := r.pana_entries ++ [p] }

/-- The per-line loop of `parse`: skip blank lines, route the entries of
good lines, record one error (and clear `success`) per bad line. -/
def processLines : List (Nat × List Char) → ParseResult → ParseResult
  | [], r => r
  | (n, line) :: rest, r =>
    let line := pyStrip line
    if line.isEmpty then processLines rest r
    else
      match parseLine line with
      | Except.ok es => processLines rest (es.foldl distributeEntry r)
      | Except.error e =>
        processLines rest { r with errors := r.errors ++ [(n, e)], success := false }

/-- Method `UnifiedParser.parse`: empty-input check, multiline
preprocessing, per-line parsing with line-local error collection, final
no-entries check.  The source wraps `_parse_line` in `try/except`, so
`parse` itself never raises; totality of this definition reflects that. -/
def parse (text : String) : ParseResult :=
  let t := text.data
  if (pyStrip t).isEmpty then
    { emptyResult with success := false, errors := [(0, ParseErr.emptyInput)] }
  else
    let pp := preprocessMultilineValues t
    let ls := splitOnChar '\n' (pyStrip pp)
    let r := processLines (ls.enumFrom 1) emptyResult
    if r.entries.isEmpty && r.type_entries.isEmpty &&
       r.family_pana_entries.isEmpty && r.errors.isEmpty then
      { r with success := false, errors := r.errors ++ [(0, ParseErr.noValidEntries)] }
    else r

/-!
Part 2: the database manager (`src/database/db_manager.py`).

Tables are lists of rows; SQL INTEGER columns are `Int`; timestamps
(`created_at` / `updated_at`, always written `CURRENT_TIMESTAMP`) are not
modelled.  SQL emits GROUP BY groups in an unspecified order; here groups
are listed in first-occurrence order, and all correctness predicates are
stated pointwise so the choice is immaterial.  Exceptions raised by the
store during recomputation are modelled by fault flags, one per
`_recalculate_*` helper, standing for a failure of that helper's INSERT
step; `transaction`'s rollback on exception is modelled by returning the
pre-call state. -/

/-- Row of the `customers` table. -/
structure Customer where
  id : Nat
  name : String
  commission_type : String
  is_active : Bool
deriving DecidableEq, Repr

/-- Row of the `universal_log` table (the ledger). -/
structure ULRow where
  id : Nat
  customer_id : Nat
  customer_name : String
  entry_date : String
  bazar : String
  number : Int
  value : Int
  entry_type : String
  source_line : String
  created_at : Nat
deriving DecidableEq, Repr

/-- Row of the `pana_table` rollup. -/
structure PanaRow where
  bazar : String
  entry_date : String
  number : Int
  value : Int
deriving DecidableEq, Repr

/-- Row of the `time_table` rollup (`col_0` … `col_9` as a list). -/
structure TimeRow where
  customer_id : Nat
  customer_name : String
  bazar : String
  entry_date : String
  cols : List Int
deriving DecidableEq, Repr

/-- Row of the `jodi_table` rollup. -/
structure JodiRow where
  bazar : String
  entry_date : String
  jodi_number : Int
  value : Int
deriving DecidableEq, Repr

/-- Row of the `customer_bazar_summary` rollup, with the ten fixed
market-total columns of `bazar_mapping`. -/
structure SummaryRow where
  customer_id : Nat
  customer_name : String
  entry_date : String
  to_total : Int
  tk_total : Int
  mo_total : Int
  mk_total : Int
  ko_total : Int
  kk_total : Int
  nmo_total : Int
  nmk_total : Int
  bo_total : Int
  bk_total : Int
deriving DecidableEq, Repr

/-- The database state.  `jodi_table_exists` models the `sqlite_master`
check of `_recalculate_jodi_table`; `next_id` the AUTOINCREMENT counter
of `universal_log`. -/
structure DB where
  customers : List Customer
  universal_log : List ULRow
  pana_table : List PanaRow
  time_table : List TimeRow
  jodi_table : List JodiRow
  jodi_table_exists : Bool
  customer_bazar_summary : List SummaryRow
  next_id : Nat
deriving DecidableEq, Repr

/-- Injected store failures: one flag per `_recalculate_*` helper,
standing for an exception raised at that helper's INSERT step. -/
structure Faults where
  panaFails : Bool
  timeFails : Bool
  jodiFails : Bool
  summaryFails : Bool
deriving DecidableEq, Repr

/-- The fault-free environment. -/
def noFaults : Faults := ⟨false, false, false, false⟩

/-- Sum of the `value` column over a list of ledger rows (SQL `SUM`). -/
def sumValues (rows : List ULRow) : Int :=
  (rows.map (·.value)).sum

/-- First-occurrence deduplication (the distinct GROUP BY keys). -/
def dedupFirstGo [DecidableEq α] (seen : List α) : List α → List α
  | [] => []
  | x :: xs =>
    if x ∈ seen then dedupFirstGo seen xs
    else x :: dedupFirstGo (x :: seen) xs

/-- Distinct elements of a list, keeping first occurrences. -/
def dedupFirst [DecidableEq α] (l : List α) : List α :=
  dedupFirstGo [] l

/-- WHERE clause of `_recalculate_pana_table`'s recompute query. -/
def panaLogRows (log : List ULRow) (b d : String) : List ULRow :=
  log.filter fun r => r.bazar == b && r.entry_date == d && r.entry_type == "PANA"

/-- Grouped sum of the PANA ledger slice at one number. -/
def panaAggVal (log : List ULRow) (b d : String) (n : Int) : Int :=
  sumValues ((panaLogRows log b d).filter (·.number == n))

/-- Recompute query of `_recalculate_pana_table`: GROUP BY number,
HAVING SUM(value) > 0. -/
def panaAggRows (log : List ULRow) (b d : String) : List PanaRow :=
  (dedupFirst ((panaLogRows log b d).map (·.number))).filterMap fun n =>
    let s := panaAggVal log b d n
    if 0 < s then some ⟨b, d, n, s⟩ else none

/-- Method `_recalculate_pana_table`: delete the (bazar, date) slice,
reinsert it from the ledger. -/
def recalcPanaTable (db : DB) (b d : String) : DB :=
  let cleared := db.pana_table.filter fun r => !(r.bazar == b && r.entry_date == d)
  { db with pana_table := cleared ++ panaAggRows db.universal_log b d }

/-- WHERE clause of `_recalculate_time_table`'s recompute query
(TIME_DIRECT / TIME_MULTI, number BETWEEN 0 AND 9). -/
def timeLogRows (log : List ULRow) (cid : Nat) (b d : String) : List ULRow :=
  log.filter fun r =>
    r.customer_id == cid && r.bazar == b && r.entry_date == d &&
    (r.entry_type == "TIME_DIRECT" || r.entry_type == "TIME_MULTI") &&
    0 ≤ r.number && r.number ≤ 9

/-- Column total of one time-table column from the ledger. -/
def timeColSum (log : List ULRow) (cid : Nat) (b d : String) (j : Nat) : Int :=
  sumValues ((timeLogRows log cid b d).filter (·.number == (j : Int)))

/-- GROUP BY number result of `_recalculate_time_table` (distinct number,
summed value). -/
def timeGroups (log : List ULRow) (cid : Nat) (b d : String) : List (Int × Int) :=
  (dedupFirst ((timeLogRows log cid b d).map (·.number))).map fun n =>
    (n, sumValues ((timeLogRows log cid b d).filter (·.number == n)))

/-- Pivot of the grouped totals into `col_0` … `col_9` (missing groups
stay 0, as in the source's zero-initialised `col_values`). -/
def buildTimeCols (groups : List (Int × Int)) : List Int :=
  (List.range 10).map fun (j : Nat) =>
    ((groups.find? (fun p => p.1 == (j : Int))).map (·.2)).getD 0

/-- Method `_recalculate_time_table`: delete the (customer, bazar, date)
row, reinsert it when the ledger slice is non-empty. -/
def recalcTimeTable (db : DB) (cid : Nat) (cname : String) (b d : String) : DB :=
  let cleared := db.time_table.filter fun r =>
    !(r.customer_id == cid && r.bazar == b && r.entry_date == d)
  match timeGroups db.universal_log cid b d with
  | [] => { db with time_table := cleared }
  | groups =>
    { db with time_table := cleared ++ [⟨cid, cname, b, d, buildTimeCols groups⟩] }

/-- WHERE clause of `_recalculate_jodi_table`'s recompute query (JODI,
number BETWEEN 0 AND 99). -/
def jodiLogRows (log : List ULRow) (b d : String) : List ULRow :=
  log.filter fun r =>
    r.bazar == b && r.entry_date == d && r.entry_type == "JODI" &&
    0 ≤ r.number && r.number ≤ 99

/-- Grouped sum of the JODI ledger slice at one number. -/
def jodiAggVal (log : List ULRow) (b d : String) (n : Int) : Int :=
  sumValues ((jodiLogRows log b d).filter (·.number == n))

/-- Recompute query of `_recalculate_jodi_table`: GROUP BY number,
HAVING SUM(value) > 0. -/
def jodiAggRows (log : List ULRow) (b d : String) : List JodiRow :=
  (dedupFirst ((jodiLogRows log b d).map (·.number))).filterMap fun n =>
    let s := jodiAggVal log b d n
    if 0 < s then some ⟨b, d, n, s⟩ else none

/-- Method `_recalculate_jodi_table`.  Unlike the other helpers its
`except` block does NOT re-raise, so a failure of the INSERT step
(`jodiFails`) leaves the slice deleted but not reinserted, and the
enclosing transaction proceeds. -/
def recalcJodiTable (jodiFails : Bool) (db : DB) (b d : String) : DB :=
  if !db.jodi_table_exists then db
  else
    let cleared := db.jodi_table.filter fun r => !(r.bazar == b && r.entry_date == d)
    if jodiFails then { db with jodi_table := cleared }
    else { db with jodi_table := cleared ++ jodiAggRows db.universal_log b d }

/-- Rows of one customer and date (the summary recompute's WHERE). -/
def custLogRows (log : List ULRow) (cid : Nat) (d : String) : List ULRow :=
  log.filter fun r => r.customer_id == cid && r.entry_date == d

/-- Total of one bazar for a customer and date. -/
def bazarSum (log : List ULRow) (cid : Nat) (d : String) (bz : String) : Int :=
  sumValues ((custLogRows log cid d).filter (·.bazar == bz))

/-- GROUP BY bazar, HAVING SUM(value) > 0 of
`_recalculate_customer_summary` (the source's `bazar_totals`). -/
def summaryGroups (log : List ULRow) (cid : Nat) (d : String) : List (String × Int) :=
  (dedupFirst ((custLogRows log cid d).map (·.bazar))).filterMap fun bz =>
    let s := bazarSum log cid d bz
    if 0 < s then some (bz, s) else none

/-- Column value for one named bazar (zero-initialised, overwritten when
the bazar has a positive group). -/
def summaryColFor (groups : List (String × Int)) (bz : String) : Int :=
  ((groups.find? (fun p => p.1 == bz)).map (·.2)).getD 0

/-- Method `_recalculate_customer_summary`: delete the (customer, date)
row, reinsert it when any bazar group survives HAVING; bazars outside
`bazar_mapping` contribute no column. -/
def recalcCustomerSummary (db : DB) (cid : Nat) (cname : String) (d : String) : DB :=
  let cleared := db.customer_bazar_summary.filter fun r =>
    !(r.customer_id == cid && r.entry_date == d)
  match summaryGroups db.universal_log cid d with
  | [] => { db with customer_bazar_summary := cleared }
  | groups =>
    { db with customer_bazar_summary := cleared ++
        [⟨cid, cname, d,
          summaryColFor groups "T.O", summaryColFor groups "T.K",
          summaryColFor groups "M.O", summaryColFor groups "M.K",
          summaryColFor groups "K.O", summaryColFor groups "K.K",
          summaryColFor groups "NMO", summaryColFor groups "NMK",
          summaryColFor groups "B.O", summaryColFor groups "B.K"⟩] }

/-- Method `_recalculate_aggregated_tables_for_context`.  `none` models
an exception escaping the helper (pana/time/summary re-raise; jodi's is
swallowed inside `_recalculate_jodi_table`). -/
def recalcContext (f : Faults) (db : DB) (cid : Nat) (cname : String)
    (d b ty : String) : Option DB :=
  if ty == "PANA" && f.panaFails then none
  else
    let db := if ty == "PANA" then recalcPanaTable db b d else db
    if (ty == "TIME_DIRECT" || ty == "TIME_MULTI") && f.timeFails then none
    else
      let db :=
        if ty == "TIME_DIRECT" || ty == "TIME_MULTI" then
          recalcTimeTable db cid cname b d
        else db
      let db := if ty == "JODI" then recalcJodiTable f.jodiFails db b d else db
      if f.summaryFails then none
      else some (recalcCustomerSummary db cid cname d)

/-- SELECT of one ledger row by primary key. -/
def findULRow (db : DB) (entry_id : Nat) : Option ULRow :=
  db.universal_log.find? (fun r => r.id == entry_id)

/-- SELECT name FROM customers WHERE id = ? AND is_active = 1. -/
def activeCustomerName (db : DB) (cid : Nat) : Option String :=
  (db.customers.find? fun c => c.id == cid && c.is_active).map (·.name)

/-- Insert payload of `add_universal_log_entry` (`entry_data`). -/
structure ULEntryData where
  customer_id : Nat
  customer_name : String
  entry_date : String
  bazar : String
  number : Int
  value : Int
  entry_type : String
  source_line : String
deriving DecidableEq, Repr

/-- Method `add_universal_log_entry`: a plain INSERT returning the new
row id.  Note it performs no rollup recomputation. -/
def addUniversalLogEntry (db : DB) (e : ULEntryData) : DB × Nat :=
  let row : ULRow :=
    ⟨db.next_id, e.customer_id, e.customer_name, e.entry_date, e.bazar,
     e.number, e.value, e.entry_type, e.source_line, 0⟩
  ({ db with universal_log := db.universal_log ++ [row],
             next_id := db.next_id + 1 },
   db.next_id)

/-- Caller-supplied `updates` dictionary of `update_universal_log_entry`:
`some` marks a key present in the dictionary.  The last three keys are
not in the source's `allowed_fields` and must be ignored. -/
structure ULUpdates where
  number : Option Int
  value : Option Int
  entry_type : Option String
  bazar : Option String
  source_line : Option String
  entry_date : Option String
  customer_id : Option Nat
  created_at : Option Nat
deriving DecidableEq, Repr

/-- The empty updates dictionary. -/
def noUpdates : ULUpdates := ⟨none, none, none, none, none, none, none, none⟩

/-- Does the dictionary contain at least one allowed field? -/
def hasAllowedField (u : ULUpdates) : Bool :=
  u.number.isSome || u.value.isSome || u.entry_type.isSome ||
  u.bazar.isSome || u.source_line.isSome

/-- Method `update_universal_log_entry`: look up the row and the active
customer's current name, apply the allowed fields (resynchronising
`customer_name` when stale), then recompute the old context and — when
bazar or entry_type changed — the new context, all rolled back together
on an escaping exception.  The source collects the contexts in a `set`
(iteration order unspecified); the two contexts touch their own keys and
share only the twice-recomputed summary slice, so old-then-new order is
taken. -/
def updateUniversalLogEntry (f : Faults) (db : DB) (entry_id : Nat)
    (updates : ULUpdates) : DB × Bool :=
  match findULRow db entry_id with
  | none => (db, false)
  | some entry =>
    match activeCustomerName db entry.customer_id with
    | none => (db, false)
    | some correctName =>
      if !hasAllowedField updates && entry.customer_name == correctName then
        (db, false)
      else
        let newRow : ULRow :=
          { entry with
            number := updates.number.getD entry.number
            value := updates.value.getD entry.value
            entry_type := updates.entry_type.getD entry.entry_type
            bazar := updates.bazar.getD entry.bazar
            source_line := updates.source_line.getD entry.source_line
            customer_name := correctName }
        let db1 := { db with universal_log :=
          db.universal_log.map fun r => if r.id == entry_id then newRow else r }
        let newBazar := updates.bazar.getD entry.bazar
        let newType := updates.entry_type.getD entry.entry_type
        let res :=
          match recalcContext f db1 entry.customer_id correctName
              entry.entry_date entry.bazar entry.entry_type with
          | none => none
          | some db2 =>
            if newBazar != entry.bazar || newType != entry.entry_type then
              recalcContext f db2 entry.customer_id correctName
                entry.entry_date newBazar newType
            else some db2
        match res with
        | some db2 => (db2, true)
        | none => (db, false)

/-- Method `delete_universal_log_entry`: read the row's context, DELETE
it, recompute that context; rollback on an escaping exception. -/
def deleteUniversalLogEntry (f : Faults) (db : DB) (entry_id : Nat) : DB × Bool :=
  match findULRow db entry_id with
  | none => (db, false)
  | some entry =>
    let db1 := { db with universal_log :=
      db.universal_log.filter fun r => !(r.id == entry_id) }
    match recalcContext f db1 entry.customer_id entry.customer_name
        entry.entry_date entry.bazar entry.entry_type with
    | some db2 => (db2, true)
    | none => (db, false)

/-- Case-insensitive name equality (customers.name is UNIQUE COLLATE
NOCASE). -/
def lowerEq (a b : String) : Bool :=
  a.data.map Char.toLower == b.data.map Char.toLower

/-- Method `update_customer`: rename the active customer and cascade the
new name into `universal_log`, `time_table` and `customer_bazar_summary`
rows of that customer, in one transaction.  A UNIQUE-constraint violation
(another customer already holding the name, case-insensitively) raises,
is caught, and rolls the whole transaction back. -/
def updateCustomer (db : DB) (customer_id : Nat) (name commission_type : String) :
    DB × Bool :=
  match db.customers.find? (fun c => c.id == customer_id && c.is_active) with
  | none => (db, false)
  | some _ =>
    if db.customers.any (fun c => !(c.id == customer_id) && lowerEq c.name name) then
      (db, false)
    else
      ({ db with
          customers := db.customers.map fun c =>
            if c.id == customer_id && c.is_active then
              { c with name := name, commission_type := commission_type }
            else c
          universal_log := db.universal_log.map fun r =>
            if r.customer_id == customer_id then { r with customer_name := name } else r
          time_table := db.time_table.map fun r =>
            if r.customer_id == customer_id then { r with customer_name := name } else r
          customer_bazar_summary := db.customer_bazar_summary.map fun r =>
            if r.customer_id == customer_id then { r with customer_name := name } else r },
       true)

/-- The pana rollup slice at (bazar, date) equals the grouped-sum
aggregate of the current ledger: for every number, the slice holds
exactly one row carrying the ledger sum when that sum is positive, and no
row otherwise. -/
def panaSliceMatchesT (pana : List PanaRow) (log : List ULRow) (b d : String) : Prop :=
  ∀ n : Int,
    (0 < panaAggVal log b d n →
      pana.filter (fun r => r.bazar == b && r.entry_date == d && r.number == n) =
        [⟨b, d, n, panaAggVal log b d n⟩]) ∧
    (panaAggVal log b d n ≤ 0 →
      pana.filter (fun r => r.bazar == b && r.entry_date == d && r.number == n) = [])

/-- Slice predicate applied to a database state. -/
def panaSliceMatches (db : DB) (b d : String) : Prop :=
  panaSliceMatchesT db.pana_table db.universal_log b d

/-- The jodi rollup slice at (bazar, date) equals the grouped-sum
aggregate of the current ledger. -/
def jodiSliceMatchesT (jodi : List JodiRow) (log : List ULRow) (b d : String) : Prop :=
  ∀ n : Int,
    (0 < jodiAggVal log b d n →
      jodi.filter (fun r => r.bazar == b && r.entry_date == d && r.jodi_number == n) =
        [⟨b, d, n, jodiAggVal log b d n⟩]) ∧
    (jodiAggVal log b d n ≤ 0 →
      jodi.filter (fun r => r.bazar == b && r.entry_date == d && r.jodi_number == n) = [])

/-- Slice predicate applied to a database state. -/
def jodiSliceMatches (db : DB) (b d : String) : Prop :=
  jodiSliceMatchesT db.jodi_table db.universal_log b d

/-- The time rollup slice at (customer, bazar, date) equals the ledger
aggregate: one row of per-column sums when the ledger slice is non-empty,
no row otherwise. -/
def timeSliceMatchesT (tt : List TimeRow) (log : List ULRow) (cid : Nat)
    (cname : String) (b d : String) : Prop :=
  let rows := tt.filter fun r => r.customer_id == cid && r.bazar == b && r.entry_date == d
  if (timeLogRows log cid b d).isEmpty then rows = []
  else rows = [⟨cid, cname, b, d, (List.range 10).map (timeColSum log cid b d)⟩]

/-- Slice predicate applied to a database state. -/
def timeSliceMatches (db : DB) (cid : Nat) (cname : String) (b d : String) : Prop :=
  timeSliceMatchesT db.time_table db.universal_log cid cname b d

/-- One summary column matches the ledger: the bazar's total when
positive, else 0. -/
def summaryColAgg (log : List ULRow) (cid : Nat) (d bz : String) : Int :=
  let s := bazarSum log cid d bz
  if 0 < s then s else 0

/-- The summary rollup slice at (customer, date) equals the ledger
aggregate: one row whose ten named columns carry the positive bazar
totals when some bazar total is positive, no row otherwise. -/
def summarySliceMatchesT (cs : List SummaryRow) (log : List ULRow) (cid : Nat)
    (cname : String) (d : String) : Prop :=
  let rows := cs.filter fun r => r.customer_id == cid && r.entry_date == d
  if (summaryGroups log cid d).isEmpty then rows = []
  else rows =
    [⟨cid, cname, d,
      summaryColAgg log cid d "T.O", summaryColAgg log cid d "T.K",
      summaryColAgg log cid d "M.O", summaryColAgg log cid d "M.K",
      summaryColAgg log cid d "K.O", summaryColAgg log cid d "K.K",
      summaryColAgg log cid d "NMO", summaryColAgg log cid d "NMK",
      summaryColAgg log cid d "B.O", summaryColAgg log cid d "B.K"⟩]

/-- Slice predicate applied to a database state. -/
def summarySliceMatches (db : DB) (cid : Nat) (cname : String) (d : String) : Prop :=
  summarySliceMatchesT db.customer_bazar_summary db.universal_log cid cname d

/-- All rollup slices recomputed for one context match the ledger
aggregate (each kind-specific slice when the context's entry_type selects
it, the summary slice always; the jodi slice only when the optional
jodi_table exists). -/
def contextSlicesOK (db : DB) (cid : Nat) (cname : String) (d b ty : String) : Prop :=
  (ty = "PANA" → panaSliceMatches db b d) ∧
  (ty = "TIME_DIRECT" ∨ ty = "TIME_MULTI" → timeSliceMatches db cid cname b d) ∧
  (ty = "JODI" → db.jodi_table_exists = true → jodiSliceMatches db b d) ∧
  summarySliceMatches db cid cname d

/-! Helper lemmas. -/

theorem mem_dedupFirstGo [DecidableEq α] (a : α) (l : List α) :
    ∀ seen, a ∈ dedupFirstGo seen l ↔ a ∈ l ∧ a ∉ seen := by
  induction l with
  | nil => simp [dedupFirstGo]
  | cons x xs ih =>
    intro seen
    by_cases hx : x ∈ seen
    · rw [dedupFirstGo, if_pos hx, ih seen]
      constructor
      · rintro ⟨h1, h2⟩; exact ⟨List.mem_cons_of_mem _ h1, h2⟩
      · rintro ⟨h1, h2⟩
        rcases List.mem_cons.mp h1 with h1 | h1
        · exact absurd (h1 ▸ hx) h2
        · exact ⟨h1, h2⟩
    · rw [dedupFirstGo, if_neg hx]
      simp only [List.mem_cons, ih (x :: seen)]
      by_cases hax : a = x
      · subst hax; simp [hx]
      · simp [hax]

theorem mem_dedupFirst [DecidableEq α] (a : α) (l : List α) :
    a ∈ dedupFirst l ↔ a ∈ l := by
  simp [dedupFirst, mem_dedupFirstGo]

theorem nodup_dedupFirstGo [DecidableEq α] (l : List α) :
    ∀ seen, (dedupFirstGo seen l).Nodup := by
  induction l with
  | nil => intro seen; simp [dedupFirstGo]
  | cons x xs ih =>
    intro seen
    by_cases hx : x ∈ seen
    · rw [dedupFirstGo, if_pos hx]; exact ih seen
    · rw [dedupFirstGo, if_neg hx]
      refine List.nodup_cons.mpr ⟨fun hmem => ?_, ih (x :: seen)⟩
      exact ((mem_dedupFirstGo x xs (x :: seen)).mp hmem).2 (List.mem_cons_self x seen)

theorem nodup_dedupFirst [DecidableEq α] (l : List α) : (dedupFirst l).Nodup :=
  nodup_dedupFirstGo l []

theorem dedupFirstGo_eq_nil [DecidableEq α] (l : List α) :
    ∀ seen, dedupFirstGo seen l = [] ↔ ∀ a ∈ l, a ∈ seen := by
  induction l with
  | nil => simp [dedupFirstGo]
  | cons x xs ih =>
    intro seen
    by_cases hx : x ∈ seen
    · rw [dedupFirstGo, if_pos hx, ih seen]
      constructor
      · intro h a ha
        rcases List.mem_cons.mp ha with rfl | ha
        · exact hx
        · exact h a ha
      · intro h a ha; exact h a (List.mem_cons_of_mem _ ha)
    · rw [dedupFirstGo, if_neg hx]
      constructor
      · intro h; cases h
      · intro h; exact absurd (h x (List.mem_cons_self x xs)) hx

theorem dedupFirst_eq_nil [DecidableEq α] (l : List α) :
    dedupFirst l = [] ↔ l = [] := by
  rw [dedupFirst, dedupFirstGo_eq_nil]
  constructor
  · intro h
    cases l with
    | nil => rfl
    | cons x xs => exact absurd (h x (List.mem_cons_self x xs)) (List.not_mem_nil x)
  · rintro rfl
    intro a ha
    exact ha

theorem filter_filterMap_eq {α β : Type} (l : List α) (h : α → Option β) (p : β → Bool) :
    (l.filterMap h).filter p = l.filterMap fun a =>
      match h a with
      | some b => if p b then some b else none
      | none => none := by
  induction l with
  | nil => rfl
  | cons x xs ih =>
    rw [List.filterMap_cons, List.filterMap_cons]
    cases hx : h x with
    | none => simpa using ih
    | some b =>
      by_cases hb : p b
      · simp [hb, List.filter_cons, ih]
      · simp [hb, ih]

theorem filterMap_point {α β : Type} [DecidableEq α] (l : List α) (h : α → Option β)
    (a : α) (hnd : l.Nodup) (hother : ∀ x ∈ l, x ≠ a → h x = none) :
    l.filterMap h = if a ∈ l then (h a).toList else [] := by
  induction l with
  | nil => simp
  | cons x xs ih =>
    obtain ⟨hx, hxs⟩ := List.nodup_cons.mp hnd
    by_cases hxa : x = a
    · subst hxa
      have hnil : xs.filterMap h = [] := by
        refine List.filterMap_eq_nil_iff.mpr fun y hy => ?_
        exact hother y (List.mem_cons_of_mem _ hy) (fun hya => hx (hya ▸ hy))
      rw [List.filterMap_cons, hnil]
      cases h x <;> simp
    · have hnone : h x = none := hother x (List.mem_cons_self x xs) hxa
      rw [List.filterMap_cons, hnone,
        ih hxs (fun y hy => hother y (List.mem_cons_of_mem _ hy))]
      by_cases ha : a ∈ xs
      · have hmem : a ∈ x :: xs := List.mem_cons_of_mem _ ha
        simp [ha, hmem]
      · have hnm : a ∉ x :: xs := by
          intro hmem
          rcases List.mem_cons.mp hmem with h1 | h1
          · exact hxa h1.symm
          · exact ha h1
        simp [ha, hnm]

theorem find?_map_key {S : Int → Int} (l : List Int) (a : Int) :
    (l.map fun n => (n, S n)).find? (fun p => p.1 == a) =
      if a ∈ l then some (a, S a) else none := by
  induction l with
  | nil => simp
  | cons n xs ih =>
    by_cases hna : n = a
    · subst hna; simp [List.find?]
    · have : (n == a) = false := by simp [hna]
      simp only [List.map_cons, List.find?, this, List.mem_cons, ih]
      by_cases ha : a ∈ xs <;> simp [ha, Ne.symm hna, hna]

theorem filter_key_cleared {β : Type} (l : List β) (key p : β → Bool)
    (himp : ∀ r, p r = true → key r = true) :
    ((l.filter fun r => !(key r)).filter p) = [] := by
  rw [List.filter_filter]
  refine List.filter_eq_nil_iff.mpr fun r _ => ?_
  intro hb
  obtain ⟨hp, hk⟩ := Bool.and_eq_true_iff.mp hb
  rw [himp r hp] at hk
  cases hk

theorem panaAggVal_nonzero_mem (log : List ULRow) (b d : String) (n : Int)
    (h : panaAggVal log b d n ≠ 0) : n ∈ (panaLogRows log b d).map (·.number) := by
  by_contra hn
  apply h
  have hnil : (panaLogRows log b d).filter (·.number == n) = [] := by
    refine List.filter_eq_nil_iff.mpr fun r hr => ?_
    intro hb
    exact hn (List.mem_map.mpr ⟨r, hr, by simpa using hb⟩)
  rw [panaAggVal, hnil]
  rfl

theorem panaAggRows_filter (log : List ULRow) (b d : String) (n : Int) :
    ((panaAggRows log b d).filter fun r =>
        r.bazar == b && r.entry_date == d && r.number == n) =
      if 0 < panaAggVal log b d n then [⟨b, d, n, panaAggVal log b d n⟩] else [] := by
  rw [panaAggRows, filter_filterMap_eq]
  rw [filterMap_point _ _ n (nodup_dedupFirst _)
    (fun m _ hmn => by
      by_cases hs : 0 < panaAggVal log b d m <;> simp [hs, hmn])]
  by_cases hpos : 0 < panaAggVal log b d n
  · have hmem : n ∈ dedupFirst ((panaLogRows log b d).map (·.number)) :=
      (mem_dedupFirst _ _).mpr (panaAggVal_nonzero_mem log b d n (ne_of_gt hpos))
    simp [hmem, hpos]
  · by_cases hmem : n ∈ dedupFirst ((panaLogRows log b d).map (·.number)) <;>
      simp [hmem, hpos]

theorem jodiAggVal_nonzero_mem (log : List ULRow) (b d : String) (n : Int)
    (h : jodiAggVal log b d n ≠ 0) : n ∈ (jodiLogRows log b d).map (·.number) := by
  by_contra hn
  apply h
  have hnil : (jodiLogRows log b d).filter (·.number == n) = [] := by
    refine List.filter_eq_nil_iff.mpr fun r hr => ?_
    intro hb
    exact hn (List.mem_map.mpr ⟨r, hr, by simpa using hb⟩)
  rw [jodiAggVal, hnil]
  rfl

theorem jodiAggRows_filter (log : List ULRow) (b d : String) (n : Int) :
    ((jodiAggRows log b d).filter fun r =>
        r.bazar == b && r.entry_date == d && r.jodi_number == n) =
      if 0 < jodiAggVal log b d n then [⟨b, d, n, jodiAggVal log b d n⟩] else [] := by
  rw [jodiAggRows, filter_filterMap_eq]
  rw [filterMap_point _ _ n (nodup_dedupFirst _)
    (fun m _ hmn => by
      by_cases hs : 0 < jodiAggVal log b d m <;> simp [hs, hmn])]
  by_cases hpos : 0 < jodiAggVal log b d n
  · have hmem : n ∈ dedupFirst ((jodiLogRows log b d).map (·.number)) :=
      (mem_dedupFirst _ _).mpr (jodiAggVal_nonzero_mem log b d n (ne_of_gt hpos))
    simp [hmem, hpos]
  · by_cases hmem : n ∈ dedupFirst ((jodiLogRows log b d).map (·.number)) <;>
      simp [hmem, hpos]

theorem recalcPanaTable_post (db : DB) (b d : String) :
    panaSliceMatchesT (recalcPanaTable db b d).pana_table db.universal_log b d := by
  intro n
  have htable : (recalcPanaTable db b d).pana_table =
      (db.pana_table.filter fun r => !(r.bazar == b && r.entry_date == d)) ++
        panaAggRows db.universal_log b d := rfl
  rw [htable, List.filter_append,
    filter_key_cleared _ _ _ (fun r hp => by
      obtain ⟨h1, _⟩ := Bool.and_eq_true_iff.mp hp
      exact h1),
    panaAggRows_filter]
  constructor
  · intro hpos; simp [hpos]
  · intro hle
    have : ¬ 0 < panaAggVal db.universal_log b d n := by omega
    simp [this]

theorem recalcJodiTable_post (db : DB) (b d : String)
    (hex : db.jodi_table_exists = true) :
    jodiSliceMatchesT (recalcJodiTable false db b d).jodi_table db.universal_log b d := by
  intro n
  have htable : (recalcJodiTable false db b d).jodi_table =
      (db.jodi_table.filter fun r => !(r.bazar == b && r.entry_date == d)) ++
        jodiAggRows db.universal_log b d := by
    rw [recalcJodiTable, hex]
    rfl
  rw [htable, List.filter_append,
    filter_key_cleared _ _ _ (fun r hp => by
      obtain ⟨h1, _⟩ := Bool.and_eq_true_iff.mp hp
      exact h1),
    jodiAggRows_filter]
  constructor
  · intro hpos; simp [hpos]
  · intro hle
    have : ¬ 0 < jodiAggVal db.universal_log b d n := by omega
    simp [this]

theorem timeGroups_eq_nil (log : List ULRow) (cid : Nat) (b d : String) :
    timeGroups log cid b d = [] ↔ timeLogRows log cid b d = [] := by
  rw [timeGroups, List.map_eq_nil_iff, dedupFirst_eq_nil, List.map_eq_nil_iff]

theorem timeColSum_not_mem (log : List ULRow) (cid : Nat) (b d : String) (j : Nat)
    (h : (j : Int) ∉ (timeLogRows log cid b d).map (·.number)) :
    timeColSum log cid b d j = 0 := by
  have hnil : (timeLogRows log cid b d).filter (·.number == (j : Int)) = [] := by
    refine List.filter_eq_nil_iff.mpr fun r hr => ?_
    intro hb
    exact h (List.mem_map.mpr ⟨r, hr, by simpa using hb⟩)
  rw [timeColSum, hnil]
  rfl

theorem buildTimeCols_timeGroups (log : List ULRow) (cid : Nat) (b d : String) :
    buildTimeCols (timeGroups log cid b d) =
      (List.range 10).map (timeColSum log cid b d) := by
  rw [buildTimeCols]
  refine List.map_congr_left fun j _ => ?_
  rw [timeGroups, find?_map_key]
  by_cases hmem : (j : Int) ∈ dedupFirst ((timeLogRows log cid b d).map (·.number))
  · simp [hmem, timeColSum]
  · rw [if_neg hmem]
    have : (j : Int) ∉ (timeLogRows log cid b d).map (·.number) := by
      rw [← mem_dedupFirst]; exact hmem
    simp [timeColSum_not_mem log cid b d j this]

theorem recalcTimeTable_post (db : DB) (cid : Nat) (cname : String) (b d : String) :
    timeSliceMatchesT (recalcTimeTable db cid cname b d).time_table
      db.universal_log cid cname b d := by
  have hkey : ∀ r : TimeRow,
      (r.customer_id == cid && r.bazar == b && r.entry_date == d) = true →
      (r.customer_id == cid && r.bazar == b && r.entry_date == d) = true :=
    fun _ h => h
  rw [timeSliceMatchesT]
  cases hg : timeGroups db.universal_log cid b d with
  | nil =>
    have hrows : timeLogRows db.universal_log cid b d = [] :=
      (timeGroups_eq_nil _ _ _ _).mp hg
    have htable : (recalcTimeTable db cid cname b d).time_table =
        db.time_table.filter fun r =>
          !(r.customer_id == cid && r.bazar == b && r.entry_date == d) := by
      rw [recalcTimeTable, hg]
    rw [htable, hrows]
    simp only [List.isEmpty_nil]
    rw [if_pos trivial]
    exact filter_key_cleared _ _ _ hkey
  | cons g gs =>
    have hrows : timeLogRows db.universal_log cid b d ≠ [] := by
      intro h
      rw [← timeGroups_eq_nil] at h
      rw [hg] at h
      cases h
    have htable : (recalcTimeTable db cid cname b d).time_table =
        (db.time_table.filter fun r =>
          !(r.customer_id == cid && r.bazar == b && r.entry_date == d)) ++
        [⟨cid, cname, b, d, buildTimeCols (g :: gs)⟩] := by
      rw [recalcTimeTable, hg]
    rw [htable, List.filter_append, filter_key_cleared _ _ _ hkey]
    rw [if_neg (by simp [List.isEmpty_iff, hrows])]
    rw [← hg, buildTimeCols_timeGroups]
    simp

theorem bazarSum_nonzero_mem (log : List ULRow) (cid : Nat) (d bz : String)
    (h : bazarSum log cid d bz ≠ 0) : bz ∈ (custLogRows log cid d).map (·.bazar) := by
  by_contra hn
  apply h
  have hnil : (custLogRows log cid d).filter (·.bazar == bz) = [] := by
    refine List.filter_eq_nil_iff.mpr fun r hr => ?_
    intro hb
    exact hn (List.mem_map.mpr ⟨r, hr, by simpa using hb⟩)
  rw [bazarSum, hnil]
  rfl

theorem summaryGroups_filter (log : List ULRow) (cid : Nat) (d bz : String) :
    ((summaryGroups log cid d).filter fun p => p.1 == bz) =
      if 0 < bazarSum log cid d bz then [(bz, bazarSum log cid d bz)] else [] := by
  rw [summaryGroups, filter_filterMap_eq]
  rw [filterMap_point _ _ bz (nodup_dedupFirst _)
    (fun m _ hmn => by
      by_cases hs : 0 < bazarSum log cid d m <;> simp [hs, hmn])]
  by_cases hpos : 0 < bazarSum log cid d bz
  · have hmem : bz ∈ dedupFirst ((custLogRows log cid d).map (·.bazar)) :=
      (mem_dedupFirst _ _).mpr (bazarSum_nonzero_mem log cid d bz (ne_of_gt hpos))
    simp [hmem, hpos]
  · by_cases hmem : bz ∈ dedupFirst ((custLogRows log cid d).map (·.bazar)) <;>
      simp [hmem, hpos]

theorem summaryColFor_summaryGroups (log : List ULRow) (cid : Nat) (d bz : String) :
    summaryColFor (summaryGroups log cid d) bz = summaryColAgg log cid d bz := by
  rw [summaryColFor, ← List.filter_head?, summaryGroups_filter, summaryColAgg]
  by_cases hpos : 0 < bazarSum log cid d bz <;> simp [hpos]

theorem recalcCustomerSummary_post (db : DB) (cid : Nat) (cname : String) (d : String) :
    summarySliceMatchesT (recalcCustomerSummary db cid cname d).customer_bazar_summary
      db.universal_log cid cname d := by
  have hkey : ∀ r : SummaryRow,
      (r.customer_id == cid && r.entry_date == d) = true →
      (r.customer_id == cid && r.entry_date == d) = true :=
    fun _ h => h
  rw [summarySliceMatchesT]
  cases hg : summaryGroups db.universal_log cid d with
  | nil =>
    have htable : (recalcCustomerSummary db cid cname d).customer_bazar_summary =
        db.customer_bazar_summary.filter fun r =>
          !(r.customer_id == cid && r.entry_date == d) := by
      rw [recalcCustomerSummary, hg]
    rw [htable]
    simp only [List.isEmpty_nil]
    rw [if_pos trivial]
    exact filter_key_cleared _ _ _ hkey
  | cons g gs =>
    have htable : (recalcCustomerSummary db cid cname d).customer_bazar_summary =
        (db.customer_bazar_summary.filter fun r =>
          !(r.customer_id == cid && r.entry_date == d)) ++
        [⟨cid, cname, d,
          summaryColFor (g :: gs) "T.O", summaryColFor (g :: gs) "T.K",
          summaryColFor (g :: gs) "M.O", summaryColFor (g :: gs) "M.K",
          summaryColFor (g :: gs) "K.O", summaryColFor (g :: gs) "K.K",
          summaryColFor (g :: gs) "NMO", summaryColFor (g :: gs) "NMK",
          summaryColFor (g :: gs) "B.O", summaryColFor (g :: gs) "B.K"⟩] := by
      rw [recalcCustomerSummary, hg]
    rw [htable, List.filter_append, filter_key_cleared _ _ _ hkey]
    simp only [List.isEmpty_cons]
    rw [if_neg Bool.false_ne_true]
    rw [← hg]
    simp only [summaryColFor_summaryGroups]
    simp

@[simp] theorem recalcPanaTable_fields (db : DB) (b d : String) :
    (recalcPanaTable db b d).universal_log = db.universal_log ∧
    (recalcPanaTable db b d).time_table = db.time_table ∧
    (recalcPanaTable db b d).jodi_table = db.jodi_table ∧
    (recalcPanaTable db b d).jodi_table_exists = db.jodi_table_exists ∧
    (recalcPanaTable db b d).customer_bazar_summary = db.customer_bazar_summary :=
  ⟨rfl, rfl, rfl, rfl, rfl⟩

@[simp] theorem recalcTimeTable_universal_log (db : DB) (cid : Nat) (cname b d : String) :
    (recalcTimeTable db cid cname b d).universal_log = db.universal_log := by
  unfold recalcTimeTable; split <;> rfl

@[simp] theorem recalcTimeTable_pana (db : DB) (cid : Nat) (cname b d : String) :
    (recalcTimeTable db cid cname b d).pana_table = db.pana_table := by
  unfold recalcTimeTable; split <;> rfl

@[simp] theorem recalcTimeTable_jodi (db : DB) (cid : Nat) (cname b d : String) :
    (recalcTimeTable db cid cname b d).jodi_table = db.jodi_table := by
  unfold recalcTimeTable; split <;> rfl

@[simp] theorem recalcTimeTable_jodiEx (db : DB) (cid : Nat) (cname b d : String) :
    (recalcTimeTable db cid cname b d).jodi_table_exists = db.jodi_table_exists := by
  unfold recalcTimeTable; split <;> rfl

@[simp] theorem recalcTimeTable_summary (db : DB) (cid : Nat) (cname b d : String) :
    (recalcTimeTable db cid cname b d).customer_bazar_summary =
      db.customer_bazar_summary := by
  unfold recalcTimeTable; split <;> rfl

@[simp] theorem recalcJodiTable_universal_log (jf : Bool) (db : DB) (b d : String) :
    (recalcJodiTable jf db b d).universal_log = db.universal_log := by
  unfold recalcJodiTable
  split
  · rfl
  · split <;> rfl

@[simp] theorem recalcJodiTable_pana (jf : Bool) (db : DB) (b d : String) :
    (recalcJodiTable jf db b d).pana_table = db.pana_table := by
  unfold recalcJodiTable
  split
  · rfl
  · split <;> rfl

@[simp] theorem recalcJodiTable_time (jf : Bool) (db : DB) (b d : String) :
    (recalcJodiTable jf db b d).time_table = db.time_table := by
  unfold recalcJodiTable
  split
  · rfl
  · split <;> rfl

@[simp] theorem recalcJodiTable_jodiEx (jf : Bool) (db : DB) (b d : String) :
    (recalcJodiTable jf db b d).jodi_table_exists = db.jodi_table_exists := by
  unfold recalcJodiTable
  split
  · rfl
  · split <;> rfl

@[simp] theorem recalcJodiTable_summary (jf : Bool) (db : DB) (b d : String) :
    (recalcJodiTable jf db b d).customer_bazar_summary = db.customer_bazar_summary := by
  unfold recalcJodiTable
  split
  · rfl
  · split <;> rfl

@[simp] theorem recalcCustomerSummary_universal_log (db : DB) (cid : Nat) (cname d : String) :
    (recalcCustomerSummary db cid cname d).universal_log = db.universal_log := by
  unfold recalcCustomerSummary; split <;> rfl

@[simp] theorem recalcCustomerSummary_pana (db : DB) (cid : Nat) (cname d : String) :
    (recalcCustomerSummary db cid cname d).pana_table = db.pana_table := by
  unfold recalcCustomerSummary; split <;> rfl

@[simp] theorem recalcCustomerSummary_time (db : DB) (cid : Nat) (cname d : String) :
    (recalcCustomerSummary db cid cname d).time_table = db.time_table := by
  unfold recalcCustomerSummary; split <;> rfl

@[simp] theorem recalcCustomerSummary_jodi (db : DB) (cid : Nat) (cname d : String) :
    (recalcCustomerSummary db cid cname d).jodi_table = db.jodi_table := by
  unfold recalcCustomerSummary; split <;> rfl

@[simp] theorem recalcCustomerSummary_jodiEx (db : DB) (cid : Nat) (cname d : String) :
    (recalcCustomerSummary db cid cname d).jodi_table_exists = db.jodi_table_exists := by
  unfold recalcCustomerSummary; split <;> rfl

theorem panaAggRows_mem (log : List ULRow) (b d : String) (r : PanaRow)
    (h : r ∈ panaAggRows log b d) : r.bazar = b ∧ r.entry_date = d := by
  rw [panaAggRows] at h
  obtain ⟨n, _, hf⟩ := List.mem_filterMap.mp h
  by_cases hs : 0 < panaAggVal log b d n
  · rw [if_pos hs] at hf
    cases hf
    exact ⟨rfl, rfl⟩
  · rw [if_neg hs] at hf
    cases hf

theorem jodiAggRows_mem (log : List ULRow) (b d : String) (r : JodiRow)
    (h : r ∈ jodiAggRows log b d) : r.bazar = b ∧ r.entry_date = d := by
  rw [jodiAggRows] at h
  obtain ⟨n, _, hf⟩ := List.mem_filterMap.mp h
  by_cases hs : 0 < jodiAggVal log b d n
  · rw [if_pos hs] at hf
    cases hf
    exact ⟨rfl, rfl⟩
  · rw [if_neg hs] at hf
    cases hf

theorem panaSliceMatchesT_recalc_other (pt : List PanaRow) (log : List ULRow)
    (b d b2 d2 : String) (hne : ¬(b2 = b ∧ d2 = d))
    (h : panaSliceMatchesT pt log b d) :
    panaSliceMatchesT
      ((pt.filter fun r => !(r.bazar == b2 && r.entry_date == d2)) ++
        panaAggRows log b2 d2) log b d := by
  intro n
  have hfilter : ∀ pred : PanaRow → Bool,
      (∀ r : PanaRow, pred r = true → r.bazar = b ∧ r.entry_date = d) →
      ((pt.filter fun r => !(r.bazar == b2 && r.entry_date == d2)) ++
        panaAggRows log b2 d2).filter pred = pt.filter pred := by
    intro pred hpred
    rw [List.filter_append]
    have hagg : (panaAggRows log b2 d2).filter pred = [] := by
      refine List.filter_eq_nil_iff.mpr fun r hr => ?_
      intro hb
      obtain ⟨h1, h2⟩ := hpred r hb
      obtain ⟨h3, h4⟩ := panaAggRows_mem log b2 d2 r hr
      exact hne ⟨by rw [← h3, h1], by rw [← h4, h2]⟩
    rw [hagg, List.append_nil, List.filter_filter]
    refine List.filter_congr fun r _ => ?_
    cases hp : pred r with
    | false => simp
    | true =>
      obtain ⟨h1, h2⟩ := hpred r hp
      have hkey : (r.bazar == b2 && r.entry_date == d2) = false := by
        rw [Bool.and_eq_false_iff]
        by_cases hb2 : b2 = b
        · right
          rw [h2]
          simp [fun hd2 : d2 = d => hne ⟨hb2, hd2⟩, beq_eq_false_iff_ne]
          intro hdd
          exact hne ⟨hb2, hdd.symm⟩
        · left
          simp [beq_eq_false_iff_ne, h1]
          intro hbb
          exact hb2 hbb.symm
      simp [hkey]
  have hpred : ∀ r : PanaRow,
      (r.bazar == b && r.entry_date == d && r.number == n) = true →
      r.bazar = b ∧ r.entry_date = d := by
    intro r hb
    obtain ⟨hb1, _⟩ := Bool.and_eq_true_iff.mp hb
    obtain ⟨hb2, hb3⟩ := Bool.and_eq_true_iff.mp hb1
    exact ⟨by simpa using hb2, by simpa using hb3⟩
  rw [hfilter _ hpred]
  exact h n

theorem jodiSliceMatchesT_recalc_other (jt : List JodiRow) (log : List ULRow)
    (b d b2 d2 : String) (hne : ¬(b2 = b ∧ d2 = d))
    (h : jodiSliceMatchesT jt log b d) :
    jodiSliceMatchesT
      ((jt.filter fun r => !(r.bazar == b2 && r.entry_date == d2)) ++
        jodiAggRows log b2 d2) log b d := by
  intro n
  have hfilter : ∀ pred : JodiRow → Bool,
      (∀ r : JodiRow, pred r = true → r.bazar = b ∧ r.entry_date = d) →
      ((jt.filter fun r => !(r.bazar == b2 && r.entry_date == d2)) ++
        jodiAggRows log b2 d2).filter pred = jt.filter pred := by
    intro pred hpred
    rw [List.filter_append]
    have hagg : (jodiAggRows log b2 d2).filter pred = [] := by
      refine List.filter_eq_nil_iff.mpr fun r hr => ?_
      intro hb
      obtain ⟨h1, h2⟩ := hpred r hb
      obtain ⟨h3, h4⟩ := jodiAggRows_mem log b2 d2 r hr
      exact hne ⟨by rw [← h3, h1], by rw [← h4, h2]⟩
    rw [hagg, List.append_nil, List.filter_filter]
    refine List.filter_congr fun r _ => ?_
    cases hp : pred r with
    | false => simp
    | true =>
      obtain ⟨h1, h2⟩ := hpred r hp
      have hkey : (r.bazar == b2 && r.entry_date == d2) = false := by
        rw [Bool.and_eq_false_iff]
        by_cases hb2 : b2 = b
        · right
          rw [h2]
          simp [beq_eq_false_iff_ne]
          intro hdd
          exact hne ⟨hb2, hdd.symm⟩
        · left
          simp [beq_eq_false_iff_ne, h1]
          intro hbb
          exact hb2 hbb.symm
      simp [hkey]
  have hpred : ∀ r : JodiRow,
      (r.bazar == b && r.entry_date == d && r.jodi_number == n) = true →
      r.bazar = b ∧ r.entry_date = d := by
    intro r hb
    obtain ⟨hb1, _⟩ := Bool.and_eq_true_iff.mp hb
    obtain ⟨hb2, hb3⟩ := Bool.and_eq_true_iff.mp hb1
    exact ⟨by simpa using hb2, by simpa using hb3⟩
  rw [hfilter _ hpred]
  exact h n

theorem timeSliceMatchesT_recalc_other (db : DB) (log : List ULRow)
    (cid : Nat) (cname : String) (b d : String)
    (cid2 : Nat) (cname2 : String) (b2 d2 : String)
    (hne : ¬(cid2 = cid ∧ b2 = b ∧ d2 = d))
    (h : timeSliceMatchesT db.time_table log cid cname b d) :
    timeSliceMatchesT (recalcTimeTable db cid2 cname2 b2 d2).time_table
      log cid cname b d := by
  have hkeyrow : (cid2 == cid && b2 == b && d2 == d) = false := by
    by_cases h1 : cid2 = cid
    · by_cases h2 : b2 = b
      · by_cases h3 : d2 = d
        · exact absurd ⟨h1, h2, h3⟩ hne
        · simp [h3]
      · simp [h2]
    · simp [h1]
  have hclear : ((db.time_table.filter fun r =>
        !(r.customer_id == cid2 && r.bazar == b2 && r.entry_date == d2)).filter
        fun r => r.customer_id == cid && r.bazar == b && r.entry_date == d) =
      db.time_table.filter
        fun r => r.customer_id == cid && r.bazar == b && r.entry_date == d := by
    rw [List.filter_filter]
    refine List.filter_congr fun r _ => ?_
    cases hp : (r.customer_id == cid && r.bazar == b && r.entry_date == d) with
    | false => simp
    | true =>
      obtain ⟨hp1, hp3⟩ := Bool.and_eq_true_iff.mp hp
      obtain ⟨hp1, hp2⟩ := Bool.and_eq_true_iff.mp hp1
      have e1 : r.customer_id = cid := by simpa using hp1
      have e2 : r.bazar = b := by simpa using hp2
      have e3 : r.entry_date = d := by simpa using hp3
      have : (r.customer_id == cid2 && r.bazar == b2 && r.entry_date == d2) = false := by
        rw [e1, e2, e3]
        by_cases h1 : cid2 = cid
        · by_cases h2 : b2 = b
          · by_cases h3 : d2 = d
            · exact absurd ⟨h1, h2, h3⟩ hne
            · have hdd : (d == d2) = false :=
                beq_false_of_ne (fun hd => h3 hd.symm)
              simp [hdd]
          · have hbb : (b == b2) = false :=
              beq_false_of_ne (fun hb => h2 hb.symm)
            simp [hbb]
        · have hcc : (cid == cid2) = false :=
            beq_false_of_ne (fun hc => h1 hc.symm)
          simp [hcc]
      simp [this]
  have hfilter : ((recalcTimeTable db cid2 cname2 b2 d2).time_table.filter
        fun r => r.customer_id == cid && r.bazar == b && r.entry_date == d) =
      db.time_table.filter
        fun r => r.customer_id == cid && r.bazar == b && r.entry_date == d := by
    rw [recalcTimeTable]
    cases timeGroups db.universal_log cid2 b2 d2 with
    | nil => exact hclear
    | cons g gs =>
      rw [List.filter_append, hclear, List.filter_cons]
      simp only [List.filter_nil]
      rw [if_neg (by simp [hkeyrow])]
      simp
  unfold timeSliceMatchesT at h ⊢
  rw [hfilter]
  exact h

theorem recalcContext_noFaults_eq (db : DB) (cid : Nat) (cname : String)
    (d b ty : String) :
    recalcContext noFaults db cid cname d b ty =
      some (recalcCustomerSummary
        (if ty == "JODI" then
          recalcJodiTable false
            (if ty == "TIME_DIRECT" || ty == "TIME_MULTI" then
              recalcTimeTable (if ty == "PANA" then recalcPanaTable db b d else db)
                cid cname b d
            else if ty == "PANA" then recalcPanaTable db b d else db) b d
        else if ty == "TIME_DIRECT" || ty == "TIME_MULTI" then
          recalcTimeTable (if ty == "PANA" then recalcPanaTable db b d else db)
            cid cname b d
        else if ty == "PANA" then recalcPanaTable db b d else db)
        cid cname d) := by
  simp [recalcContext, noFaults]

theorem recalcContext_post (db : DB) (cid : Nat) (cname : String) (d b ty : String)
    (db2 : DB) (h : recalcContext noFaults db cid cname d b ty = some db2) :
    contextSlicesOK db2 cid cname d b ty := by
  rw [recalcContext_noFaults_eq] at h
  obtain rfl := (Option.some.inj h).symm
  refine ⟨?_, ?_, ?_, ?_⟩
  · intro hty
    subst hty
    show panaSliceMatchesT _ _ _ _
    simp only [recalcCustomerSummary_pana, recalcCustomerSummary_universal_log]
    simp only [show (("PANA" == "JODI") = true) = False by simp,
      show (("PANA" == "TIME_DIRECT" || "PANA" == "TIME_MULTI") = true) = False by simp,
      show (("PANA" == "PANA") = true) = True by simp, if_false, if_true]
    exact recalcPanaTable_post db b d
  · intro hty
    show timeSliceMatchesT _ _ _ _ _ _
    simp only [recalcCustomerSummary_time, recalcCustomerSummary_universal_log]
    rcases hty with hty | hty <;> subst hty
    · simp only [show (("TIME_DIRECT" == "JODI") = true) = False by simp,
        show (("TIME_DIRECT" == "TIME_DIRECT" || "TIME_DIRECT" == "TIME_MULTI") = true) = True by simp,
        show (("TIME_DIRECT" == "PANA") = true) = False by simp, if_false, if_true]
      simp only [recalcTimeTable_universal_log]
      exact recalcTimeTable_post db cid cname b d
    · simp only [show (("TIME_MULTI" == "JODI") = true) = False by simp,
        show (("TIME_MULTI" == "TIME_DIRECT" || "TIME_MULTI" == "TIME_MULTI") = true) = True by simp,
        show (("TIME_MULTI" == "PANA") = true) = False by simp, if_false, if_true]
      simp only [recalcTimeTable_universal_log]
      exact recalcTimeTable_post db cid cname b d
  · intro hty hex
    subst hty
    show jodiSliceMatchesT _ _ _ _
    simp only [recalcCustomerSummary_jodi, recalcCustomerSummary_universal_log] at hex ⊢
    simp only [show (("JODI" == "JODI") = true) = True by simp,
      show (("JODI" == "TIME_DIRECT" || "JODI" == "TIME_MULTI") = true) = False by simp,
      show (("JODI" == "PANA") = true) = False by simp, if_false, if_true] at hex ⊢
    simp only [recalcJodiTable_universal_log]
    exact recalcJodiTable_post db b d (by simpa using hex)
  · show summarySliceMatchesT _ _ _ _ _
    simp only [DB.customer_bazar_summary, recalcCustomerSummary_universal_log]
    have := recalcCustomerSummary_post
      (if ty == "JODI" then
        recalcJodiTable false
          (if ty == "TIME_DIRECT" || ty == "TIME_MULTI" then
            recalcTimeTable (if ty == "PANA" then recalcPanaTable db b d else db)
              cid cname b d
          else if ty == "PANA" then recalcPanaTable db b d else db) b d
      else if ty == "TIME_DIRECT" || ty == "TIME_MULTI" then
        recalcTimeTable (if ty == "PANA" then recalcPanaTable db b d else db)
          cid cname b d
      else if ty == "PANA" then recalcPanaTable db b d else db)
      cid cname d
    exact this

theorem recalcContext_preserves (db db2 : DB) (cid : Nat) (cname : String)
    (d b ty b2 ty2 : String)
    (h : recalcContext noFaults db cid cname d b2 ty2 = some db2)
    (hok : contextSlicesOK db cid cname d b ty) :
    contextSlicesOK db2 cid cname d b ty := by
  rw [recalcContext_noFaults_eq] at h
  obtain rfl := (Option.some.inj h).symm
  obtain ⟨h1, h2, h3, h4⟩ := hok
  set Z := if ty2 == "PANA" then recalcPanaTable db b2 d else db with hZ
  set Y := if ty2 == "TIME_DIRECT" || ty2 == "TIME_MULTI" then
    recalcTimeTable Z cid cname b2 d else Z with hY
  set X := if ty2 == "JODI" then recalcJodiTable false Y b2 d else Y with hX
  have hlogZ : Z.universal_log = db.universal_log := by
    rw [hZ]; split <;> simp
  have hlogY : Y.universal_log = db.universal_log := by
    rw [hY]; split <;> simp [hlogZ]
  have hlogX : X.universal_log = db.universal_log := by
    rw [hX]; split <;> simp [hlogY]
  have hexZ : Z.jodi_table_exists = db.jodi_table_exists := by
    rw [hZ]; split <;> simp
  have hexY : Y.jodi_table_exists = db.jodi_table_exists := by
    rw [hY]; split <;> simp [hexZ]
  have hexX : X.jodi_table_exists = db.jodi_table_exists := by
    rw [hX]; split <;> simp [hexY]
  have htimeZ : Z.time_table = db.time_table := by
    rw [hZ]; split <;> simp
  have hjodiZ : Z.jodi_table = db.jodi_table := by
    rw [hZ]; split <;> simp
  have hjodiY : Y.jodi_table = db.jodi_table := by
    rw [hY]; split <;> simp [hjodiZ]
  have hpanaY : Y.pana_table = Z.pana_table := by
    rw [hY]; split <;> simp
  have hpanaX : X.pana_table = Y.pana_table := by
    rw [hX]; split <;> simp
  have htimeX : X.time_table = Y.time_table := by
    rw [hX]; split <;> simp
  refine ⟨?_, ?_, ?_, ?_⟩
  · intro hty
    have hp := h1 hty
    show panaSliceMatchesT _ _ _ _
    simp only [recalcCustomerSummary_pana, recalcCustomerSummary_universal_log,
      hpanaX, hpanaY, hlogX]
    rw [hZ]
    by_cases hc : (ty2 == "PANA") = true
    · rw [if_pos hc]
      by_cases hbb : b2 = b
      · subst hbb
        exact recalcPanaTable_post db b2 d
      · have hrw : (recalcPanaTable db b2 d).pana_table =
            (db.pana_table.filter fun r => !(r.bazar == b2 && r.entry_date == d)) ++
              panaAggRows db.universal_log b2 d := rfl
        rw [hrw]
        exact panaSliceMatchesT_recalc_other db.pana_table db.universal_log b d b2 d
          (fun hand => hbb hand.1) hp
    · rw [if_neg hc]
      exact hp
  · intro hty
    have hp := h2 hty
    show timeSliceMatchesT _ _ _ _ _ _
    simp only [recalcCustomerSummary_time, recalcCustomerSummary_universal_log,
      htimeX, hlogX]
    rw [hY]
    by_cases hc : (ty2 == "TIME_DIRECT" || ty2 == "TIME_MULTI") = true
    · rw [if_pos hc]
      by_cases hbb : b2 = b
      · subst hbb
        have := recalcTimeTable_post Z cid cname b2 d
        rw [hlogZ] at this
        -- the slice rows of Z coincide with those of db
        exact this
      · have hp2 : timeSliceMatchesT Z.time_table db.universal_log cid cname b d := by
          rw [htimeZ]; exact hp
        have := timeSliceMatchesT_recalc_other Z db.universal_log cid cname b d
          cid cname b2 d (fun hand => hbb hand.2.1) hp2
        exact this
    · rw [if_neg hc, htimeZ]
      exact hp
  · intro hty hex
    have hexdb : db.jodi_table_exists = true := by
      have : (recalcCustomerSummary X cid cname d).jodi_table_exists =
          db.jodi_table_exists := by
        simp [hexX]
      rw [← this]
      exact hex
    have hp := h3 hty hexdb
    show jodiSliceMatchesT _ _ _ _
    simp only [recalcCustomerSummary_jodi, recalcCustomerSummary_universal_log, hlogX]
    rw [hX]
    by_cases hc : (ty2 == "JODI") = true
    · rw [if_pos hc]
      by_cases hbb : b2 = b
      · subst hbb
        have hexy : Y.jodi_table_exists = true := by rw [hexY]; exact hexdb
        have := recalcJodiTable_post Y b2 d hexy
        rw [hlogY] at this
        exact this
      · have hexy : Y.jodi_table_exists = true := by rw [hexY]; exact hexdb
        have hrw : (recalcJodiTable false Y b2 d).jodi_table =
            (Y.jodi_table.filter fun r => !(r.bazar == b2 && r.entry_date == d)) ++
              jodiAggRows Y.universal_log b2 d := by
          rw [recalcJodiTable, hexy]
          rfl
        rw [hrw, hjodiY, hlogY]
        exact jodiSliceMatchesT_recalc_other db.jodi_table db.universal_log b d b2 d
          (fun hand => hbb hand.1) hp
    · rw [if_neg hc, hjodiY]
      exact hp
  · show summarySliceMatchesT _ _ _ _ _
    simp only [recalcCustomerSummary_universal_log]
    exact recalcCustomerSummary_post X cid cname d

theorem recalcContext_summaryFails (f : Faults) (hsf : f.summaryFails = true)
    (db : DB) (cid : Nat) (cname : String) (d b ty : String) :
    recalcContext f db cid cname d b ty = none := by
  simp [recalcContext, hsf]

theorem recalcContext_log (f : Faults) (db : DB) (cid : Nat) (cname : String)
    (d b ty : String) (dbx : DB)
    (h : recalcContext f db cid cname d b ty = some dbx) :
    dbx.universal_log = db.universal_log := by
  simp only [recalcContext] at h
  split at h
  · cases h
  · split at h
    · cases h
    · split at h
      · cases h
      · obtain rfl := Option.some.inj h
        simp only [recalcCustomerSummary_universal_log]
        by_cases hj : (ty == "JODI") = true <;>
        by_cases ht : (ty == "TIME_DIRECT" || ty == "TIME_MULTI") = true <;>
        by_cases hp : (ty == "PANA") = true <;>
          simp [hj, ht, hp]

theorem find?_map_ite (entry_id : Nat) (nr : ULRow)
    (hnr : (nr.id == entry_id) = true) (l : List ULRow) :
    ∀ r, l.find? (fun x => x.id == entry_id) = some r →
      (l.map fun x => if x.id == entry_id then nr else x).find?
        (fun x => x.id == entry_id) = some nr := by
  induction l with
  | nil => intro r h; cases h
  | cons x xs ih =>
    intro r h
    cases hx : (x.id == entry_id) with
    | true =>
      have hmap : ((x :: xs).map fun y => if y.id == entry_id then nr else y) =
          nr :: (xs.map fun y => if y.id == entry_id then nr else y) := by
        rw [List.map_cons, if_pos hx]
      rw [hmap]
      simp [List.find?, hnr]
    | false =>
      have hmap : ((x :: xs).map fun y => if y.id == entry_id then nr else y) =
          x :: (xs.map fun y => if y.id == entry_id then nr else y) := by
        rw [List.map_cons, if_neg (by simp [hx])]
      rw [hmap]
      simp only [List.find?, hx] at h ⊢
      exact ih r h

/-- Example states used to exercise the mutation operations at concrete
inputs. -/
def exCustomerA : Customer := ⟨1, "A", "commission", true⟩

/-- An empty store holding only customer A. -/
def c1InsDb : DB := ⟨[exCustomerA], [], [], [], [], true, [], 1⟩

/-- A PANA insert payload for customer A. -/
def c1InsEntry : ULEntryData :=
  ⟨1, "A", "2024-01-01", "T.O", 128, 100, "PANA", "128=100"⟩

/-- A consistent store with one PANA ledger row and matching rollups. -/
def c1DelDb : DB :=
  ⟨[exCustomerA],
   [⟨1, 1, "A", "2024-01-01", "T.O", 128, 100, "PANA", "128=100", 0⟩],
   [⟨"T.O", "2024-01-01", 128, 100⟩], [], [], true,
   [⟨1, "A", "2024-01-01", 100, 0, 0, 0, 0, 0, 0, 0, 0, 0⟩], 2⟩

/-- Two JODI ledger rows used by the jodi-fault scenario. -/
def c3row1 : ULRow := ⟨1, 1, "A", "2024-01-01", "T.O", 10, 100, "JODI", "s1", 0⟩

/-- Second JODI ledger row of the jodi-fault scenario. -/
def c3row2 : ULRow := ⟨2, 1, "A", "2024-01-01", "T.O", 20, 200, "JODI", "s2", 0⟩

/-- A consistent store with two JODI rows and matching rollups. -/
def c3db : DB :=
  ⟨[exCustomerA], [c3row1, c3row2], [], [],
   [⟨"T.O", "2024-01-01", 10, 100⟩, ⟨"T.O", "2024-01-01", 20, 200⟩], true,
   [⟨1, "A", "2024-01-01", 300, 0, 0, 0, 0, 0, 0, 0, 0, 0⟩], 3⟩

/-- A store failure at the jodi_table INSERT step only. -/
def c3faults : Faults := ⟨false, false, true, false⟩

/-- A store failure at the customer_bazar_summary INSERT step only. -/
def c3faultsSummary : Faults := ⟨false, false, false, true⟩

/-- A ledger row whose denormalized customer_name is stale ("OLD" while
the customers table says "B"). -/
def c10row : ULRow := ⟨1, 1, "OLD", "2024-01-01", "T.O", 128, 100, "PANA", "s", 0⟩

/-- Store for the stale-name scenario. -/
def c10db : DB :=
  ⟨[⟨1, "B", "commission", true⟩], [c10row],
   [⟨"T.O", "2024-01-01", 128, 100⟩], [], [], true,
   [⟨1, "OLD", "2024-01-01", 100, 0, 0, 0, 0, 0, 0, 0, 0, 0⟩], 2⟩

/-- Store for the customer-rename scenario: customer A with ledger and
rollup rows carrying the denormalized name. -/
def c9db : DB :=
  ⟨[exCustomerA],
   [⟨1, 1, "A", "2024-01-01", "T.O", 5, 100, "TIME_DIRECT", "5=100", 0⟩],
   [], [⟨1, "A", "T.O", "2024-01-01", [0, 0, 0, 0, 0, 100, 0, 0, 0, 0]⟩], [], true,
   [⟨1, "A", "2024-01-01", 100, 0, 0, 0, 0, 0, 0, 0, 0, 0⟩], 2⟩

/-- C1 (counterexample): inserting a ledger record through the mutation
API (`add_universal_log_entry`) does NOT recompute the rollup tables as a
side effect of the call: after inserting a PANA record into an empty
store the call returns the new row id, yet `pana_table` is still empty
and does not equal the grouped-sum aggregate of the current ledger. -/
theorem C1_counterexample :
    (addUniversalLogEntry c1InsDb c1InsEntry).2 = 1 ∧
    (addUniversalLogEntry c1InsDb c1InsEntry).1.pana_table = [] ∧
    ¬ panaSliceMatches (addUniversalLogEntry c1InsDb c1InsEntry).1
        "T.O" "2024-01-01" := by
  refine ⟨rfl, rfl, fun h => ?_⟩
  have h128 := (h 128).1 (by decide)
  exact absurd h128 (by decide)

/-- C1 (amended): for the update and delete ledger mutations the claimed
consistency holds: immediately after a successful call, every recomputed
context's rollup slices (pana / time / jodi by entry kind, and the
customer summary) equal the grouped-sum aggregate of the current ledger
filtered to positive sums — for deletes the record's context, for
updates the pre-mutation context and, when bazar or entry_type changed,
also the post-mutation context.  Inserts perform no recomputation (see
the counterexample). -/
theorem C1_rollup_recompute :
    (∀ (db : DB) (entry_id : Nat) (db2 : DB) (r : ULRow),
      findULRow db entry_id = some r →
      deleteUniversalLogEntry noFaults db entry_id = (db2, true) →
      contextSlicesOK db2 r.customer_id r.customer_name r.entry_date
        r.bazar r.entry_type) ∧
    (∀ (db : DB) (entry_id : Nat) (upd : ULUpdates) (db2 : DB) (r : ULRow)
      (cname : String),
      findULRow db entry_id = some r →
      activeCustomerName db r.customer_id = some cname →
      updateUniversalLogEntry noFaults db entry_id upd = (db2, true) →
      contextSlicesOK db2 r.customer_id cname r.entry_date r.bazar r.entry_type ∧
      contextSlicesOK db2 r.customer_id cname r.entry_date
        (upd.bazar.getD r.bazar) (upd.entry_type.getD r.entry_type)) := by
  constructor
  · intro db entry_id db2 r hfind h
    simp only [deleteUniversalLogEntry, hfind] at h
    split at h
    · rename_i dbx heq
      obtain rfl : dbx = db2 := congrArg Prod.fst h
      exact recalcContext_post _ _ _ _ _ _ _ heq
    · exact absurd (congrArg Prod.snd h) Bool.false_ne_true
  · intro db entry_id upd db2 r cname hfind hname h
    simp only [updateUniversalLogEntry, hfind, hname] at h
    split at h
    · exact absurd (congrArg Prod.snd h) Bool.false_ne_true
    · split at h
      · rename_i dbx heq1
        obtain rfl : dbx = db2 := congrArg Prod.fst h
        split at heq1
        · cases heq1
        · rename_i dbz heqz
          split at heq1
          · exact ⟨recalcContext_preserves dbz _ _ _ _ _ _ _ _ heq1
                (recalcContext_post _ _ _ _ _ _ _ heqz),
              recalcContext_post _ _ _ _ _ _ _ heq1⟩
          · rename_i hch
            obtain rfl := Option.some.inj heq1
            have hpost := recalcContext_post _ _ _ _ _ _ _ heqz
            have hchf : (upd.bazar.getD r.bazar != r.bazar ||
                upd.entry_type.getD r.entry_type != r.entry_type) = false := by
              simpa using hch
            obtain ⟨hb, ht⟩ := Bool.or_eq_false_iff.mp hchf
            have hbeq : upd.bazar.getD r.bazar = r.bazar := by
              simpa using hb
            have hteq : upd.entry_type.getD r.entry_type = r.entry_type := by
              simpa using ht
            rw [hbeq, hteq]
            exact ⟨hpost, hpost⟩
      · exact absurd (congrArg Prod.snd h) Bool.false_ne_true

/-- C3 (counterexample): an exception raised during jodi_table
recomputation is swallowed (`_recalculate_jodi_table` does not re-raise),
so deleting a JODI ledger row with a failing jodi INSERT commits the
deletion and returns true while jodi_table is left stale (empty, though
the remaining ledger aggregate is positive). -/
theorem C3_counterexample :
    (deleteUniversalLogEntry c3faults c3db 1).2 = true ∧
    (deleteUniversalLogEntry c3faults c3db 1).1.universal_log = [c3row2] ∧
    (deleteUniversalLogEntry c3faults c3db 1).1.jodi_table = [] ∧
    ¬ jodiSliceMatches (deleteUniversalLogEntry c3faults c3db 1).1
        "T.O" "2024-01-01" := by
  refine ⟨rfl, rfl, rfl, fun h => ?_⟩
  have h20 := (h 20).1 (by decide)
  exact absurd h20 (by decide)

/-- C3 (amended): exceptions during pana_table, time_table or
customer_bazar_summary recomputation abort and roll back the whole
transaction — whenever update or delete reports failure the state is
unchanged, and a summary-recomputation failure always yields (db, false)
— but an exception during jodi_table recomputation is swallowed, so the
mutation can commit with a stale jodi_table (see the counterexample). -/
theorem C3_rollback :
    (∀ (f : Faults) (db : DB) (entry_id : Nat),
      (deleteUniversalLogEntry f db entry_id).2 = false →
      (deleteUniversalLogEntry f db entry_id).1 = db) ∧
    (∀ (f : Faults) (db : DB) (entry_id : Nat) (upd : ULUpdates),
      (updateUniversalLogEntry f db entry_id upd).2 = false →
      (updateUniversalLogEntry f db entry_id upd).1 = db) ∧
    (∀ (f : Faults) (db : DB) (entry_id : Nat) (upd : ULUpdates),
      f.summaryFails = true →
      deleteUniversalLogEntry f db entry_id = (db, false) ∧
      updateUniversalLogEntry f db entry_id upd = (db, false)) := by
  refine ⟨?_, ?_, ?_⟩
  · intro f db entry_id
    simp only [deleteUniversalLogEntry]
    split
    · intro _; rfl
    · split
      · intro hf; simp at hf
      · intro _; rfl
  · intro f db entry_id upd
    simp only [updateUniversalLogEntry]
    split
    · intro _; rfl
    · split
      · intro _; rfl
      · split
        · intro _; rfl
        · split
          · intro hf; simp at hf
          · intro _; rfl
  · intro f db entry_id upd hsf
    refine ⟨?_, ?_⟩
    · simp only [deleteUniversalLogEntry]
      split
      · rfl
      · rw [recalcContext_summaryFails f hsf]
    · simp only [updateUniversalLogEntry]
      split
      · rfl
      · split
        · rfl
        · split
          · rfl
          · rw [recalcContext_summaryFails f hsf]

/-- C9: a successful customer rename via `update_customer` leaves zero
rows with the old name: every universal_log, time_table and
customer_bazar_summary row of that customer carries the new denormalized
name afterwards (and the customers row itself does), while a failed call
leaves the state entirely unchanged (the cascade is one transaction). -/
theorem C9_rename_cascades :
    (∀ (db : DB) (cid : Nat) (name ct : String) (db2 : DB),
      updateCustomer db cid name ct = (db2, true) →
      (∀ r ∈ db2.universal_log, r.customer_id = cid → r.customer_name = name) ∧
      (∀ r ∈ db2.time_table, r.customer_id = cid → r.customer_name = name) ∧
      (∀ r ∈ db2.customer_bazar_summary, r.customer_id = cid →
        r.customer_name = name) ∧
      (∀ c ∈ db2.customers, c.id = cid → c.is_active = true → c.name = name)) ∧
    (∀ (db : DB) (cid : Nat) (name ct : String) (db2 : DB),
      updateCustomer db cid name ct = (db2, false) → db2 = db) := by
  constructor
  · intro db cid name ct db2 h
    simp only [updateCustomer] at h
    split at h
    · exact absurd (congrArg Prod.snd h) Bool.false_ne_true
    · split at h
      · exact absurd (congrArg Prod.snd h) Bool.false_ne_true
      · obtain rfl : _ = db2 := congrArg Prod.fst h
        refine ⟨?_, ?_, ?_, ?_⟩
        · intro r hr hrid
          obtain ⟨r0, _, rfl⟩ := List.mem_map.mp hr
          by_cases hc : (r0.customer_id == cid) = true
          · rw [if_pos hc]
          · rw [if_neg hc] at hrid ⊢
            exact absurd (by simp [hrid]) hc
        · intro r hr hrid
          obtain ⟨r0, _, rfl⟩ := List.mem_map.mp hr
          by_cases hc : (r0.customer_id == cid) = true
          · rw [if_pos hc]
          · rw [if_neg hc] at hrid ⊢
            exact absurd (by simp [hrid]) hc
        · intro r hr hrid
          obtain ⟨r0, _, rfl⟩ := List.mem_map.mp hr
          by_cases hc : (r0.customer_id == cid) = true
          · rw [if_pos hc]
          · rw [if_neg hc] at hrid ⊢
            exact absurd (by simp [hrid]) hc
        · intro c hc hcid hact
          obtain ⟨c0, _, rfl⟩ := List.mem_map.mp hc
          by_cases hcc : (c0.id == cid && c0.is_active) = true
          · rw [if_pos hcc]
          · rw [if_neg hcc] at hcid hact ⊢
            exact absurd (by simp [hcid, hact]) hcc
  · intro db cid name ct db2 h
    simp only [updateCustomer] at h
    split at h
    · exact (congrArg Prod.fst h).symm
    · split at h
      · exact (congrArg Prod.fst h).symm
      · exact absurd (congrArg Prod.snd h) (by simp)

/-- C10 (counterexample): an updates dictionary containing none of the
allowed fields does not always change nothing and return false — when
the row's denormalized customer_name is out of sync with the customers
table, the call rewrites it and returns true. -/
theorem C10_counterexample :
    hasAllowedField noUpdates = false ∧
    (updateUniversalLogEntry noFaults c10db 1 noUpdates).2 = true ∧
    (updateUniversalLogEntry noFaults c10db 1 noUpdates).1 ≠ c10db ∧
    ((findULRow (updateUniversalLogEntry noFaults c10db 1 noUpdates).1 1).map
        (·.customer_name)) = some "B" := by
  refine ⟨rfl, rfl, by decide, rfl⟩

/-- C10 (amended): a successful `update_universal_log_entry` changes, of
the targeted universal_log row, only number, value, entry_type, bazar,
source_line (each to the caller's value when the key is present, else
unchanged) and the denormalized customer_name (resynchronised from the
customers table); entry_date, customer_id and created_at are unchanged
even if the updates dictionary contains keys for them.  An updates
dictionary with none of the allowed fields changes nothing and returns
false provided the stored customer_name already matches the customers
table; when it is stale the call instead resynchronises it and returns
true (see the counterexample). -/
theorem C10_update_frame :
    (∀ (f : Faults) (db : DB) (entry_id : Nat) (upd : ULUpdates) (db2 : DB)
      (r : ULRow),
      findULRow db entry_id = some r →
      updateUniversalLogEntry f db entry_id upd = (db2, true) →
      ∃ r2, findULRow db2 entry_id = some r2 ∧
        r2.entry_date = r.entry_date ∧
        r2.customer_id = r.customer_id ∧
        r2.created_at = r.created_at ∧
        r2.number = upd.number.getD r.number ∧
        r2.value = upd.value.getD r.value ∧
        r2.entry_type = upd.entry_type.getD r.entry_type ∧
        r2.bazar = upd.bazar.getD r.bazar ∧
        r2.source_line = upd.source_line.getD r.source_line ∧
        activeCustomerName db r.customer_id = some r2.customer_name) ∧
    (∀ (f : Faults) (db : DB) (entry_id : Nat) (upd : ULUpdates) (r : ULRow),
      hasAllowedField upd = false →
      findULRow db entry_id = some r →
      activeCustomerName db r.customer_id = some r.customer_name →
      updateUniversalLogEntry f db entry_id upd = (db, false)) := by
  constructor
  · intro f db entry_id upd db2 r hfind h
    cases hname : activeCustomerName db r.customer_id with
    | none =>
      simp only [updateUniversalLogEntry, hfind, hname] at h
      exact absurd (congrArg Prod.snd h) Bool.false_ne_true
    | some cname =>
      simp only [updateUniversalLogEntry, hfind, hname] at h
      have hfind2 : db.universal_log.find? (fun x => x.id == entry_id) = some r :=
        hfind
      have hrid : (r.id == entry_id) = true := by
        simpa using List.find?_some hfind2
      have hlog : db2.universal_log = db.universal_log.map fun x =>
          if x.id == entry_id then
            { r with
              number := upd.number.getD r.number
              value := upd.value.getD r.value
              entry_type := upd.entry_type.getD r.entry_type
              bazar := upd.bazar.getD r.bazar
              source_line := upd.source_line.getD r.source_line
              customer_name := cname }
          else x := by
        split at h
        · exact absurd (congrArg Prod.snd h) Bool.false_ne_true
        · split at h
          · rename_i dbx heq1
            obtain rfl : dbx = db2 := congrArg Prod.fst h
            split at heq1
            · cases heq1
            · rename_i dbz heqz
              have hlog1 := recalcContext_log _ _ _ _ _ _ _ _ heqz
              split at heq1
              · have hlog2 := recalcContext_log _ _ _ _ _ _ _ _ heq1
                rw [hlog2, hlog1]
              · obtain rfl := Option.some.inj heq1
                rw [hlog1]
          · exact absurd (congrArg Prod.snd h) Bool.false_ne_true
      refine ⟨{ r with
          number := upd.number.getD r.number
          value := upd.value.getD r.value
          entry_type := upd.entry_type.getD r.entry_type
          bazar := upd.bazar.getD r.bazar
          source_line := upd.source_line.getD r.source_line
          customer_name := cname },
        ?_, rfl, rfl, rfl, rfl, rfl, rfl, rfl, rfl, ?_⟩
      · rw [findULRow, hlog]
        exact find?_map_ite entry_id
          { r with
            number := upd.number.getD r.number
            value := upd.value.getD r.value
            entry_type := upd.entry_type.getD r.entry_type
            bazar := upd.bazar.getD r.bazar
            source_line := upd.source_line.getD r.source_line
            customer_name := cname }
          hrid db.universal_log r hfind2
      · exact rfl
  · intro f db entry_id upd r hno hfind hname
    simp [updateUniversalLogEntry, hfind, hname, hno]

theorem digitVal_le (c : Char) (h : c.isDigit = true) : digitVal c ≤ 9 := by
  have hb : 48 ≤ c.toNat ∧ c.toNat ≤ 57 := by
    simp [Char.isDigit, Char.le_def] at h
    unfold Char.toNat
    obtain ⟨h1, h2⟩ := h
    exact ⟨by exact_mod_cast h1, by exact_mod_cast h2⟩
  unfold digitVal
  have : '0'.toNat = 48 := rfl
  omega

theorem digitsToNat_foldl_lt (s : List Char) (h : ∀ c ∈ s, c.isDigit = true) :
    ∀ acc : Nat, s.foldl (fun a c => 10 * a + digitVal c) acc <
      (acc + 1) * 10 ^ s.length := by
  induction s with
  | nil => intro acc; simp
  | cons c cs ih =>
    intro acc
    have hd := digitVal_le c (h c (List.mem_cons_self c cs))
    have hstep := ih (fun x hx => h x (List.mem_cons_of_mem c hx)) (10 * acc + digitVal c)
    calc List.foldl (fun a c => 10 * a + digitVal c) (10 * acc + digitVal c) cs
        < (10 * acc + digitVal c + 1) * 10 ^ cs.length := hstep
      _ ≤ ((acc + 1) * 10) * 10 ^ cs.length := by
          have : 10 * acc + digitVal c + 1 ≤ (acc + 1) * 10 := by omega
          exact Nat.mul_le_mul_right _ this
      _ = (acc + 1) * 10 ^ (c :: cs).length := by
          rw [List.length_cons, pow_succ]
          ring

theorem digitsToNat_lt (s : List Char) (h : ∀ c ∈ s, c.isDigit = true) :
    digitsToNat s < 10 ^ s.length := by
  have := digitsToNat_foldl_lt s h 0
  simpa [digitsToNat] using this

theorem firstDigitRun_eq_none (l : List Char) (h : ∀ c ∈ l, c.isDigit = false) :
    firstDigitRun l = none := by
  induction l with
  | nil => rfl
  | cons c cs ih =>
    rw [firstDigitRun, if_neg (by simp [h c (List.mem_cons_self c cs)])]
    exact ih fun x hx => h x (List.mem_cons_of_mem c hx)

theorem extractNumbers_digits (t s : List Char) (h : s ∈ extractNumbers t) :
    s ≠ [] ∧ ∀ c ∈ s, c.isDigit = true := by
  rw [extractNumbers] at h
  obtain ⟨part, _, hf⟩ := List.mem_filterMap.mp h
  simp only [] at hf
  cases hcase : pyStrip part with
  | nil => rw [hcase] at hf; cases hf
  | cons c rest =>
    rw [hcase] at hf
    by_cases hdig : c.isDigit = true
    · simp only [hdig, if_true] at hf
      obtain rfl := Option.some.inj hf
      refine ⟨by simp, fun x hx => ?_⟩
      rcases List.mem_cons.mp hx with rfl | hx
      · exact hdig
      · exact List.mem_takeWhile_imp hx
    · simp [hdig] at hf

theorem classifyByLength_spec (s : List Char) (_hne : s ≠ [])
    (hd : ∀ c ∈ s, c.isDigit = true) :
    (s.length = 1 → classifyByLength s = Except.ok (EType.time, digitsToNat s)) ∧
    (s.length = 2 → classifyByLength s = Except.ok (EType.jodi, digitsToNat s)) ∧
    (s.length = 3 → classifyByLength s = Except.ok (EType.pana, digitsToNat s)) ∧
    (¬(s.length = 1 ∨ s.length = 2 ∨ s.length = 3) →
      classifyByLength s = Except.error (ParseErr.invalidNumberLength s)) := by
  have hbound := digitsToNat_lt s hd
  refine ⟨?_, ?_, ?_, ?_⟩
  · intro h1
    rw [h1] at hbound
    have hle : digitsToNat s ≤ 9 := by norm_num at hbound; omega
    simp [classifyByLength, h1, hle]
  · intro h2
    rw [h2] at hbound
    have hle : digitsToNat s ≤ 99 := by norm_num at hbound; omega
    simp [classifyByLength, h2, hle]
  · intro h3
    rw [h3] at hbound
    have hle : digitsToNat s ≤ 999 := by norm_num at hbound; omega
    simp [classifyByLength, h3, hle]
  · intro hno
    push_neg at hno
    obtain ⟨n1, n2, n3⟩ := hno
    simp [classifyByLength, n1, n2, n3]

theorem classifyTokens_ok (v : Nat) (toks : List (List Char))
    (hd : ∀ s ∈ toks, s ≠ [] ∧ ∀ c ∈ s, c.isDigit = true)
    (hlen : ∀ s ∈ toks, s.length = 1 ∨ s.length = 2 ∨ s.length = 3) :
    classifyTokens v toks = Except.ok (toks.map fun s => LineEntry.pe
      ⟨digitsToNat s, v,
        if s.length = 1 then EType.time
        else if s.length = 2 then EType.jodi else EType.pana⟩) := by
  induction toks with
  | nil => rfl
  | cons s rest ih =>
    obtain ⟨hne, hdig⟩ := hd s (List.mem_cons_self s rest)
    have hspec := classifyByLength_spec s hne hdig
    have ihr := ih (fun x hx => hd x (List.mem_cons_of_mem s hx))
      (fun x hx => hlen x (List.mem_cons_of_mem s hx))
    rcases hlen s (List.mem_cons_self s rest) with h | h | h
    · rw [classifyTokens, hspec.1 h, ihr]
      simp [h]
    · rw [classifyTokens, hspec.2.1 h, ihr]
      simp [h]
    · rw [classifyTokens, hspec.2.2.1 h, ihr]
      simp [h]

theorem classifyTokens_err (v : Nat) (toks : List (List Char))
    (hd : ∀ s ∈ toks, s ≠ [] ∧ ∀ c ∈ s, c.isDigit = true) (s₀ : List Char)
    (hfind : toks.find?
      (fun s => !(s.length == 1 || s.length == 2 || s.length == 3)) = some s₀) :
    classifyTokens v toks = Except.error (ParseErr.invalidNumberLength s₀) := by
  induction toks with
  | nil => cases hfind
  | cons s rest ih =>
    obtain ⟨hne, hdig⟩ := hd s (List.mem_cons_self s rest)
    have hspec := classifyByLength_spec s hne hdig
    by_cases hbad : (!(s.length == 1 || s.length == 2 || s.length == 3)) = true
    · simp only [List.find?, hbad] at hfind
      obtain rfl := Option.some.inj hfind
      have hno : ¬(s.length = 1 ∨ s.length = 2 ∨ s.length = 3) := by
        intro hor
        rcases hor with h | h | h <;> simp [h] at hbad
      rw [classifyTokens, hspec.2.2.2 hno]
    · have hbf : (!(s.length == 1 || s.length == 2 || s.length == 3)) = false := by
        simpa using hbad
      simp only [List.find?, hbf] at hfind
      have hok : s.length = 1 ∨ s.length = 2 ∨ s.length = 3 := by
        simp at hbad
        tauto
      have ihr := ih (fun x hx => hd x (List.mem_cons_of_mem s hx)) hfind
      rcases hok with h | h | h
      · rw [classifyTokens, hspec.1 h, ihr]
      · rw [classifyTokens, hspec.2.1 h, ihr]
      · rw [classifyTokens, hspec.2.2.1 h, ihr]

/-- Projection of the ParsedEntry case of a line entry. -/
def peOf : LineEntry → Option ParsedEntry
  | LineEntry.pe q => some q
  | _ => none

/-- Projection of the TypeTableEntry case of a line entry. -/
def ttOf : LineEntry → Option TypeTableEntry
  | LineEntry.tt q => some q
  | _ => none

/-- Projection of the FamilyPanaEntry case of a line entry. -/
def famOf : LineEntry → Option FamilyPanaEntry
  | LineEntry.fam q => some q
  | _ => none

/-- Declarative per-line error: the one error a non-blank failing line
contributes, tagged with its line number. -/
def lineErrOf (p : Nat × List Char) : Option (Nat × ParseErr) :=
  if (pyStrip p.2).isEmpty then none
  else
    match parseLine (pyStrip p.2) with
    | Except.error e => some (p.1, e)
    | Except.ok _ => none

/-- Declarative per-line parsed entries (empty for blank or failing
lines). -/
def lineEntriesOf (p : Nat × List Char) : List ParsedEntry :=
  if (pyStrip p.2).isEmpty then []
  else
    match parseLine (pyStrip p.2) with
    | Except.ok es => es.filterMap peOf
    | Except.error _ => []

/-- Declarative per-line type-table entries. -/
def lineTypesOf (p : Nat × List Char) : List TypeTableEntry :=
  if (pyStrip p.2).isEmpty then []
  else
    match parseLine (pyStrip p.2) with
    | Except.ok es => es.filterMap ttOf
    | Except.error _ => []

/-- Declarative per-line family-pana entries. -/
def lineFamsOf (p : Nat × List Char) : List FamilyPanaEntry :=
  if (pyStrip p.2).isEmpty then []
  else
    match parseLine (pyStrip p.2) with
    | Except.ok es => es.filterMap famOf
    | Except.error _ => []

theorem filterMap_cons_toList {α β : Type} (f : α → Option β) (a : α) (l : List α) :
    (a :: l).filterMap f = (f a).toList ++ l.filterMap f := by
  cases h : f a <;> simp [List.filterMap_cons, h]

theorem distributeEntry_fields (r : ParseResult) (e : LineEntry) :
    (distributeEntry r e).success = r.success ∧
    (distributeEntry r e).errors = r.errors ∧
    (distributeEntry r e).entries = r.entries ++ (peOf e).toList ∧
    (distributeEntry r e).type_entries = r.type_entries ++ (ttOf e).toList ∧
    (distributeEntry r e).family_pana_entries =
      r.family_pana_entries ++ (famOf e).toList := by
  cases e with
  | pe q =>
    cases hq : q.entry_type <;> simp [distributeEntry, hq, peOf, ttOf, famOf]
  | tt q => simp [distributeEntry, peOf, ttOf, famOf]
  | fam q => simp [distributeEntry, peOf, ttOf, famOf]

theorem foldl_distributeEntry (es : List LineEntry) :
    ∀ r : ParseResult,
      (es.foldl distributeEntry r).success = r.success ∧
      (es.foldl distributeEntry r).errors = r.errors ∧
      (es.foldl distributeEntry r).entries = r.entries ++ es.filterMap peOf ∧
      (es.foldl distributeEntry r).type_entries = r.type_entries ++ es.filterMap ttOf ∧
      (es.foldl distributeEntry r).family_pana_entries =
        r.family_pana_entries ++ es.filterMap famOf := by
  induction es with
  | nil => intro r; simp
  | cons e rest ih =>
    intro r
    obtain ⟨i1, i2, i3, i4, i5⟩ := ih (distributeEntry r e)
    obtain ⟨d1, d2, d3, d4, d5⟩ := distributeEntry_fields r e
    rw [List.foldl_cons]
    refine ⟨by rw [i1, d1], by rw [i2, d2], ?_, ?_, ?_⟩
    · rw [i3, d3, filterMap_cons_toList, List.append_assoc]
    · rw [i4, d4, filterMap_cons_toList, List.append_assoc]
    · rw [i5, d5, filterMap_cons_toList, List.append_assoc]

theorem processLines_spec (L : List (Nat × List Char)) :
    ∀ r : ParseResult,
      (processLines L r).success = (r.success && (L.filterMap lineErrOf).isEmpty) ∧
      (processLines L r).errors = r.errors ++ L.filterMap lineErrOf ∧
      (processLines L r).entries = r.entries ++ (L.map lineEntriesOf).flatten ∧
      (processLines L r).type_entries = r.type_entries ++ (L.map lineTypesOf).flatten ∧
      (processLines L r).family_pana_entries =
        r.family_pana_entries ++ (L.map lineFamsOf).flatten := by
  induction L with
  | nil => intro r; simp [processLines]
  | cons p rest ih =>
    intro r
    obtain ⟨n, line⟩ := p
    by_cases hb : (pyStrip line).isEmpty = true
    · obtain ⟨i1, i2, i3, i4, i5⟩ := ih r
      have hstep : processLines ((n, line) :: rest) r = processLines rest r := by
        simp [processLines, hb]
      rw [hstep]
      simp [lineErrOf, lineEntriesOf, lineTypesOf, lineFamsOf, hb, i1, i2, i3, i4, i5]
    · cases hp : parseLine (pyStrip line) with
      | ok es =>
        obtain ⟨i1, i2, i3, i4, i5⟩ := ih (es.foldl distributeEntry r)
        obtain ⟨f1, f2, f3, f4, f5⟩ := foldl_distributeEntry es r
        have hstep : processLines ((n, line) :: rest) r =
            processLines rest (es.foldl distributeEntry r) := by
          simp [processLines, hb, hp]
        rw [hstep]
        refine ⟨?_, ?_, ?_, ?_, ?_⟩
        · rw [i1, f1]
          simp [lineErrOf, hb, hp]
        · rw [i2, f2]
          simp [lineErrOf, hb, hp]
        · rw [i3, f3, List.map_cons, List.flatten]
          simp [lineEntriesOf, hb, hp, List.append_assoc]
        · rw [i4, f4, List.map_cons, List.flatten]
          simp [lineTypesOf, hb, hp, List.append_assoc]
        · rw [i5, f5, List.map_cons, List.flatten]
          simp [lineFamsOf, hb, hp, List.append_assoc]
      | error e =>
        obtain ⟨i1, i2, i3, i4, i5⟩ :=
          ih { r with errors := r.errors ++ [(n, e)], success := false }
        have hstep : processLines ((n, line) :: rest) r =
            processLines rest
              { r with errors := r.errors ++ [(n, e)], success := false } := by
          simp [processLines, hb, hp]
        rw [hstep]
        refine ⟨?_, ?_, ?_, ?_, ?_⟩
        · rw [i1]
          simp [lineErrOf, hb, hp]
        · rw [i2]
          simp [lineErrOf, hb, hp, List.append_assoc]
        · rw [i3]
          simp [lineEntriesOf, hb, hp]
        · rw [i4]
          simp [lineTypesOf, hb, hp]
        · rw [i5]
          simp [lineFamsOf, hb, hp]

/-- C2: tokens of a numbers line are carried as non-empty digit strings
(leading zeros preserved), their kind is determined solely by string
length (1 → time, 2 → jodi, 3 → pana, with number the integer value of
the string), and a token whose length is outside 1..3 makes the whole
line fail with the invalid-number-length error, contributing no
entries. -/
theorem C2_length_classification :
    (∀ t s : List Char, s ∈ extractNumbers t →
      s ≠ [] ∧ ∀ c ∈ s, c.isDigit = true) ∧
    (∀ s : List Char, s ≠ [] → (∀ c ∈ s, c.isDigit = true) →
      (s.length = 1 → classifyByLength s = Except.ok (EType.time, digitsToNat s)) ∧
      (s.length = 2 → classifyByLength s = Except.ok (EType.jodi, digitsToNat s)) ∧
      (s.length = 3 → classifyByLength s = Except.ok (EType.pana, digitsToNat s)) ∧
      (¬(s.length = 1 ∨ s.length = 2 ∨ s.length = 3) →
        classifyByLength s = Except.error (ParseErr.invalidNumberLength s))) ∧
    (∀ (line rawN rawV : List Char) (v : Nat) (toks : List (List Char)),
      (collapseDoubleEq line).contains '=' = true →
      splitFirstEq (collapseDoubleEq line) = (rawN, rawV) →
      (pyStrip rawN).isEmpty = false →
      (pyStrip rawV).isEmpty = false →
      extractValue (pyStrip rawV) = Except.ok v →
      parseFamilyPana (pyStrip rawN) v = Except.ok none →
      parseTypeTable (pyStrip rawN) v = Except.ok none →
      extractNumbers (pyStrip rawN) = toks →
      toks.isEmpty = false →
      ((∀ s ∈ toks, s.length = 1 ∨ s.length = 2 ∨ s.length = 3) →
        parseLine line = Except.ok (toks.map fun s => LineEntry.pe
          ⟨digitsToNat s, v,
            if s.length = 1 then EType.time
            else if s.length = 2 then EType.jodi else EType.pana⟩)) ∧
      (∀ s₀, toks.find?
          (fun s => !(s.length == 1 || s.length == 2 || s.length == 3)) = some s₀ →
        parseLine line = Except.error (ParseErr.invalidNumberLength s₀))) := by
  refine ⟨extractNumbers_digits, classifyByLength_spec, ?_⟩
  intro line rawN rawV v toks hcontains hsplit hne1 hne2 hval hfam htt htoks htoksne
  have hdigits : ∀ s ∈ toks, s ≠ [] ∧ ∀ c ∈ s, c.isDigit = true := by
    intro s hs
    exact extractNumbers_digits (pyStrip rawN) s (htoks ▸ hs)
  have hline : parseLine line = classifyTokens v toks := by
    rw [parseLine]
    simp only [hcontains, Bool.not_true, if_false, hsplit, hne1, hne2, hval,
      hfam, htt, htoks, htoksne]
    simp
  constructor
  · intro hlen
    rw [hline]
    exact classifyTokens_ok v toks hdigits hlen
  · intro s₀ hfind
    rw [hline]
    exact classifyTokens_err v toks hdigits s₀ hfind

/-- Witness for C2: "05/5=100" classifies "05" as jodi and "5" as time by
string length; a 4-digit token fails the whole line with the
invalid-number-length error. -/
theorem C2_length_classification_witness :
    parseLine ("05/5=100".data) = Except.ok
      [LineEntry.pe ⟨5, 100, EType.jodi⟩, LineEntry.pe ⟨5, 100, EType.time⟩] ∧
    parseLine ("9999=100".data) = Except.error
      (ParseErr.invalidNumberLength ['9', '9', '9', '9']) := by
  constructor
  · exact (C2_length_classification.2.2 ("05/5=100".data) "05/5".data "100".data 100
      [['0', '5'], ['5']] (by decide) (by decide) (by decide) (by decide) (by decide)
      (by decide) (by decide) (by decide) (by decide)).1 (by decide)
  · exact (C2_length_classification.2.2 ("9999=100".data) "9999".data "100".data 100
      [['9', '9', '9', '9']] (by decide) (by decide) (by decide) (by decide)
      (by decide) (by decide) (by decide) (by decide) (by decide)).2
      ['9', '9', '9', '9'] (by decide)

/-- C4: parse never raises — it is a total function; a structurally
empty input yields the failed result carrying the "Empty input" error;
otherwise each non-blank line contributes its parsed entries and each bad
line exactly one error tagged with its line number, independently of
sibling lines, and the result is marked failed exactly when at least one
error was recorded (success ↔ errors empty). -/
theorem C4_error_handling :
    (∀ text : String, ((parse text).success = true ↔ (parse text).errors = [])) ∧
    (∀ text : String, (pyStrip text.data).isEmpty = true →
      parse text = { emptyResult with
        success := false, errors := [(0, ParseErr.emptyInput)] }) ∧
    (∀ text : String, (pyStrip text.data).isEmpty = false →
      (parse text).entries =
        (((splitOnChar '\n'
          (pyStrip (preprocessMultilineValues text.data))).enumFrom 1).map
            lineEntriesOf).flatten ∧
      ((parse text).errors =
          ((splitOnChar '\n'
            (pyStrip (preprocessMultilineValues text.data))).enumFrom 1).filterMap
              lineErrOf ∨
        (((splitOnChar '\n'
            (pyStrip (preprocessMultilineValues text.data))).enumFrom 1).filterMap
              lineErrOf = [] ∧
          (parse text).errors = [(0, ParseErr.noValidEntries)]))) := by
  have hempty : ∀ text : String, (pyStrip text.data).isEmpty = true →
      parse text = { emptyResult with
        success := false, errors := [(0, ParseErr.emptyInput)] } := by
    intro text hemp
    simp [parse, hemp]
  have hmain : ∀ text : String, (pyStrip text.data).isEmpty = false →
      parse text =
        (let L := ((splitOnChar '\n'
          (pyStrip (preprocessMultilineValues text.data))).enumFrom 1)
        let r := processLines L emptyResult
        if r.entries.isEmpty && r.type_entries.isEmpty &&
            r.family_pana_entries.isEmpty && r.errors.isEmpty then
          { r with success := false, errors := r.errors ++ [(0, ParseErr.noValidEntries)] }
        else r) := by
    intro text hne
    simp [parse, hne]
  refine ⟨?_, hempty, ?_⟩
  · intro text
    by_cases hemp : (pyStrip text.data).isEmpty = true
    · rw [hempty text hemp]
      simp
    · rw [hmain text (by simpa using hemp)]
      obtain ⟨s1, s2, s3, s4, s5⟩ := processLines_spec
        (((splitOnChar '\n'
          (pyStrip (preprocessMultilineValues text.data))).enumFrom 1)) emptyResult
      simp only []
      split
      · rename_i hcond
        simp
      · rename_i hcond
        rw [s1, s2]
        simp only [emptyResult, Bool.true_and, List.nil_append]
        exact ⟨fun h => List.isEmpty_iff.mp h, fun h => List.isEmpty_iff.mpr h⟩
  · intro text hne
    rw [hmain text hne]
    obtain ⟨s1, s2, s3, s4, s5⟩ := processLines_spec
      (((splitOnChar '\n'
        (pyStrip (preprocessMultilineValues text.data))).enumFrom 1)) emptyResult
    simp only []
    split
    · rename_i hcond
      obtain ⟨⟨⟨he, _⟩, _⟩, herr⟩ :
          (((processLines _ emptyResult).entries.isEmpty = true ∧
            (processLines _ emptyResult).type_entries.isEmpty = true) ∧
            (processLines _ emptyResult).family_pana_entries.isEmpty = true) ∧
            (processLines _ emptyResult).errors.isEmpty = true := by
        simpa [Bool.and_eq_true_iff] using hcond
      constructor
      · show (processLines _ emptyResult).entries = _
        rw [List.isEmpty_iff.mp he]
        have := s3
        rw [List.isEmpty_iff.mp he] at this
        simp only [emptyResult, List.nil_append] at this
        exact this
      · right
        constructor
        · have := s2
          rw [List.isEmpty_iff.mp herr] at this
          simp only [emptyResult, List.nil_append] at this
          exact this.symm
        · show (processLines _ emptyResult).errors ++ _ = _
          rw [List.isEmpty_iff.mp herr]
          rfl
    · refine ⟨?_, Or.inl ?_⟩
      · rw [s3]
        simp [emptyResult]
      · rw [s2]
        simp [emptyResult]

/-- Witness for C4: the empty input yields the failed "Empty input"
result, and on a concrete two-line input with one bad line the
success-iff-no-errors equivalence holds. -/
theorem C4_error_handling_witness :
    parse "" = { emptyResult with
      success := false, errors := [(0, ParseErr.emptyInput)] } ∧
    ((parse "abc=1\n1=2").success = true ↔ (parse "abc=1\n1=2").errors = []) :=
  ⟨C4_error_handling.2.1 "" (by decide), C4_error_handling.1 "abc=1\n1=2"⟩

/-- C5: the parse result of the spec's pana example is invariant under
the choice of separator — slash, plus and comma inputs give identical
results: exactly three pana entries of value 100 and no errors. -/
theorem C5_separator_invariance :
    parse "128/129/120=100" = parse "128+129+120=100" ∧
    parse "128/129/120=100" = parse "128,129,120=100" ∧
    (parse "128/129/120=100").entries =
      [⟨128, 100, EType.pana⟩, ⟨129, 100, EType.pana⟩, ⟨120, 100, EType.pana⟩] ∧
    (parse "128/129/120=100").errors = [] ∧
    (parse "128/129/120=100").success = true :=
  ⟨rfl, rfl, rfl, rfl, rfl⟩

/-- C6: multiline reassembly is equivalent to the inline form — a
"=value" continuation line and a bare trailing number both merge into
the preceding numbers-only line, so parse "5DP\n=100" and
parse "5DP\n100" equal parse "5DP=100" exactly (one DP type-table entry
of column 5 and value 100). -/
theorem C6_multiline_reassembly :
    parse "5DP\n=100" = parse "5DP=100" ∧
    parse "5DP\n100" = parse "5DP=100" ∧
    (parse "5DP=100").type_entries = [⟨5, TType.DP, 100⟩] ∧
    (parse "5DP=100").errors = [] ∧
    (parse "5DP=100").success = true :=
  ⟨rfl, rfl, rfl, rfl, rfl⟩

/-- C7 (counterexample): a line with more than one `=` after
normalisation does NOT fail with a missing-assignment error: "1=2=3" has
two `=` after normalisation, yet parses successfully into a time entry
1 with value 2 (the text after the first `=` becomes the value region). -/
theorem C7_counterexample :
    ((collapseDoubleEq "1=2=3".data).filter (· = '=')).length = 2 ∧
    (parse "1=2=3").success = true ∧
    (parse "1=2=3").entries = [⟨1, 2, EType.time⟩] ∧
    (parse "1=2=3").errors = [] ∧
    parseLine ("1=2=3".data) ≠ Except.error ParseErr.missingAssignment :=
  ⟨rfl, rfl, rfl, rfl, by decide⟩

/-- C7 (amended): after normalising `==` to `=`, a line with no `=`
fails with the missing-assignment error; a line with one or more `=` is
split at the first `=` — so a line with more than one `=` is not
rejected, the remainder past the first `=` lands in the value region
(e.g. "1=2=3" parses as time entry 1 with value 2). -/
theorem C7_missing_assignment :
    (∀ l : List Char, (collapseDoubleEq l).contains '=' = false →
      parseLine l = Except.error ParseErr.missingAssignment) ∧
    (parse "1=2=3").entries = [⟨1, 2, EType.time⟩] ∧
    (parse "1=2=3").errors = [] := by
  refine ⟨?_, rfl, rfl⟩
  intro l h
  simp only [parseLine, h, Bool.not_false]
  rw [if_pos trivial]

/-- Witness for C7: a line with no `=` at all fails with the
missing-assignment error. -/
theorem C7_missing_assignment_witness :
    parseLine ("abc".data) = Except.error ParseErr.missingAssignment :=
  C7_missing_assignment.1 ("abc".data) (by decide)

/-- C8 (counterexample): a parsed entry's value is not always strictly
positive: "1=0" parses successfully into a time entry with value 0. -/
theorem C8_counterexample :
    (parse "1=0").success = true ∧
    (parse "1=0").entries = [⟨1, 0, EType.time⟩] ∧
    ¬(∀ e ∈ (parse "1=0").entries, 0 < e.value) := by
  refine ⟨rfl, rfl, fun h => ?_⟩
  exact absurd (h ⟨1, 0, EType.time⟩ (by decide)) (by decide)

/-- C8 (amended): the extracted value is the integer of the first digit
run of the cleaned value region — non-negative but possibly zero (e.g.
"1=0" yields a time entry of value 0, with success) — and a value region
whose cleaned text contains no digit yields the invalid-value error, so
that line produces no entry. -/
theorem C8_value_extraction :
    (∀ t : List Char,
      (∀ c ∈ pyStrip (((removeRS (pyUpper t)).filter (· ≠ '₹')).filter (· ≠ ',')),
        c.isDigit = false) →
      extractValue t = Except.error ParseErr.noNumericValue) ∧
    (∀ (t run : List Char),
      firstDigitRun
        (pyStrip (((removeRS (pyUpper t)).filter (· ≠ '₹')).filter (· ≠ ','))) =
          some run →
      extractValue t = Except.ok (digitsToNat run)) ∧
    (parse "1=0").entries = [⟨1, 0, EType.time⟩] ∧
    (parse "1=0").success = true := by
  refine ⟨?_, ?_, rfl, rfl⟩
  · intro t h
    rw [extractValue, firstDigitRun_eq_none _ h]
  · intro t run h
    rw [extractValue, h]

/-- Witness for C8: a digit-free value region fails with the
invalid-value error; a currency- and comma-marked region extracts its
digit run. -/
theorem C8_value_extraction_witness :
    extractValue ("xyz".data) = Except.error ParseErr.noNumericValue ∧
    extractValue ("RS 5,000".data) = Except.ok 5000 :=
  ⟨C8_value_extraction.1 ("xyz".data) (by decide),
   C8_value_extraction.2.1 ("RS 5,000".data) ['5', '0', '0', '0'] (by decide)⟩

/-- Witness for C1: deleting the PANA row of a concrete consistent store
succeeds and the recomputed context's slices match the ledger. -/
theorem C1_rollup_recompute_witness :
    contextSlicesOK (deleteUniversalLogEntry noFaults c1DelDb 1).1
      1 "A" "2024-01-01" "T.O" "PANA" :=
  C1_rollup_recompute.1 c1DelDb 1 (deleteUniversalLogEntry noFaults c1DelDb 1).1
    ⟨1, 1, "A", "2024-01-01", "T.O", 128, 100, "PANA", "128=100", 0⟩
    (by decide) (by decide)

/-- Witness for C3: with a failing summary INSERT, delete and update on a
concrete store roll back entirely. -/
theorem C3_rollback_witness :
    deleteUniversalLogEntry c3faultsSummary c3db 1 = (c3db, false) ∧
    updateUniversalLogEntry c3faultsSummary c3db 1 noUpdates = (c3db, false) :=
  C3_rollback.2.2 c3faultsSummary c3db 1 noUpdates (by decide)

/-- Witness for C9: renaming customer 1 of a concrete store to "B"
cascades into every universal_log row of that customer. -/
theorem C9_rename_cascades_witness :
    ∀ r ∈ (updateCustomer c9db 1 "B" "commission").1.universal_log,
      r.customer_id = 1 → r.customer_name = "B" :=
  (C9_rename_cascades.1 c9db 1 "B" "commission"
    (updateCustomer c9db 1 "B" "commission").1 (by decide)).1

/-- Witness for C10: on a concrete store whose denormalized name is in
sync, an updates dictionary with no allowed field changes nothing and
returns false. -/
theorem C10_update_frame_witness :
    updateUniversalLogEntry noFaults c1DelDb 1 noUpdates = (c1DelDb, false) :=
  C10_update_frame.2 noFaults c1DelDb 1 noUpdates
    ⟨1, 1, "A", "2024-01-01", "T.O", 128, 100, "PANA", "128=100", 0⟩
    (by decide) (by decide) (by decide)

end BetV2
